import Mathlib

/-!
Shallow embedding of the bog-engine falling-sand core (grid, movement
primitive, scheduler step, liquid grouping and equalisation, element
loader, brush outline) together with proofs about the embedded
definitions.

Modelling conventions:
* JS numbers that only ever hold integers are modelled as Int (or Nat for
  element ids); JS floating point densities and random draws are modelled
  as Rat; the trigonometry in the repose-angle computation is modelled
  over the reals.
* Math.random() is modelled as a stream of rationals (a function from a
  draw counter to a rational in [0,1)); every function that draws
  randomness takes the stream and the current counter and returns the
  advanced counter, mirroring the JS call order.
* The dense particle array of the grid is a List Particle.  JS object
  mutation is modelled by functional record update: where the source
  mutates a particle in place and callers observe the mutation through
  aliasing, the embedded function returns the updated record as well.
* A JS runtime crash (a property access on undefined or null) is
  modelled by an Option-valued result, none meaning the crash.
-/

namespace Bog

/-- Stream of Math.random() results. -/
abbrev Rng : Type := Nat → Rat

/-- A random stream is valid when every draw lies in [0, 1), as
Math.random() guarantees. -/
def ValidRng (σ : Rng) : Prop := ∀ n, 0 ≤ σ n ∧ σ n < 1

/-- JS Math.round: round half toward positive infinity. -/
def jsRound (q : Rat) : Int := ⌊q + 1/2⌋

/-- Offset2 / Offset record of the source: a relative cell offset. -/
structure Offset where
  dx : Int
  dy : Int
deriving DecidableEq, Repr

/-- Vector2 record of the source: an absolute cell position. -/
structure Vec2 where
  x : Int
  y : Int
deriving DecidableEq, Repr

/-- RGBA8 color (a Uint8ClampedArray of length 4 in the source). -/
structure Color where
  r : Nat
  g : Nat
  b : Nat
  a : Nat
deriving DecidableEq, Repr

/-- Round half to even, the rounding mode a Uint8ClampedArray store uses. -/
def roundHalfEven (q : Rat) : Int :=
  let f : Int := ⌊q⌋
  if q - f < 1/2 then f
  else if 1/2 < q - f then f + 1
  else if 2 ∣ f then f else f + 1

/-- A Uint8ClampedArray store: clamp to [0, 255] rounding half to even. -/
def u8clamp (q : Rat) : Nat :=
  if q ≤ 0 then 0
  else if 255 ≤ q then 255
  else (roundHalfEven q).toNat

/-- Stable insertion of x after all already-placed elements that compare
le to it.  Used to build the unique stable sort that a consistent JS
Array.prototype.sort comparator produces. -/
def insertLe (le : α → α → Bool) (x : α) : List α → List α
  | [] => [x]
  | y :: ys => if le y x then y :: insertLe le x ys else x :: y :: ys

/-- Stable sort by a total boolean preorder; with a consistent comparator
this is the result of JS Array.prototype.sort (stable since ES2019).
List.mergeSort is avoided because its well-founded recursion does not
reduce inside the kernel. -/
def stableSortBy (le : α → α → Bool) (l : List α) : List α :=
  l.foldl (fun acc x => insertLe le x acc) []

/-- Exchange the entries at positions i and j (a[i], a[j]] = [a[j], a[i]]
in the source).  Out-of-range positions leave the list unchanged; under a
valid random stream Fisher-Yates only produces in-range positions. -/
def swapElems (l : List α) (i j : Nat) : List α :=
  match l[i]?, l[j]? with
  | some a, some b => (l.set i b).set j a
  | _, _ => l

/-- One Fisher-Yates step at position i: j = Math.floor(random * (i+1)). -/
def shuffleStep (σ : Rng) : List α × Nat → Nat → List α × Nat
  | (l, k), i => (swapElems l i (⌊σ k * (i + 1 : Nat)⌋).toNat, k + 1)

/-- Utilities.shuffleArray: copy, then Fisher-Yates from the last index
down to 1, drawing one random per step. -/
def shuffleArray (σ : Rng) (k : Nat) (l : List α) : List α × Nat :=
  ((List.range l.length).drop 1).reverse.foldl (shuffleStep σ) (l, k)

/-- NEIGHBORHOOD.ALL_NEIGHBORS from the source, in source order. -/
def allNeighbors : List Offset :=
  [⟨-1, 1⟩, ⟨0, 1⟩, ⟨1, 1⟩, ⟨-1, 0⟩, ⟨1, 0⟩, ⟨-1, -1⟩, ⟨0, -1⟩, ⟨1, -1⟩]

/-- NEIGHBOR.UP. -/
def neighborUp : Offset := ⟨0, 1⟩

/-- NEIGHBOR.LEFT. -/
def neighborLeft : Offset := ⟨-1, 0⟩

/-- Object.keys(NEIGHBOR) mapped to offsets, in declaration order
(UP_LEFT, UP, UP_RIGHT, LEFT, RIGHT, DOWN_LEFT, DOWN, DOWN_RIGHT). -/
def neighborKeyOffsets : List Offset :=
  [⟨-1, 1⟩, ⟨0, 1⟩, ⟨1, 1⟩, ⟨-1, 0⟩, ⟨1, 0⟩, ⟨-1, -1⟩, ⟨0, -1⟩, ⟨1, -1⟩]

/-- Element data (ParticleData union of the source) flattened into one
record: the category-specific extras are Option fields that are none for
the categories that lack them.  A field that the loader sets to an IEEE
NaN (an unparseable number) is modelled as none at the inner Option
level where relevant; see the loader below. -/
structure ParticleData where
  id : Nat
  name : String
  baseColor : String
  variantColor : String
  isMovable : Bool
  density : Rat
  category : Nat
  maxConcentration : Option Rat := none
  reposeAngle : Option Rat := none
  reposeDirections : Option (List (List Offset)) := none
deriving DecidableEq, Repr

/-- Grid particle (Particle union of the source) flattened into one
record, with the category extras as Option fields. -/
structure Particle where
  handle : Int
  id : Nat
  name : String
  color : Color
  position : Vec2
  index : Int
  isMovable : Bool
  density : Rat
  category : Nat
  concentration : Option Rat := none
  maxConcentration : Option Rat := none
  reposeAngle : Option Rat := none
  reposeDirections : Option (List (List Offset)) := none
  node : Option Int := none
deriving DecidableEq, Repr

/-- STANDARD_COLORS.BLACK. -/
def blackColor : Color := ⟨0, 0, 0, 255⟩

/-- Value of one hex digit; none for a non-hex character. -/
def hexDigit (c : Char) : Option Nat :=
  if '0' ≤ c ∧ c ≤ '9' then some (c.toNat - '0'.toNat)
  else if 'a' ≤ c ∧ c ≤ 'f' then some (c.toNat - 'a'.toNat + 10)
  else if 'A' ≤ c ∧ c ≤ 'F' then some (c.toNat - 'A'.toNat + 10)
  else none

/-- Maximal valid-prefix hex parse, the behaviour of parseInt(s, 16) on a
string that starts with at least one hex digit; none when no prefix digit
exists (parseInt returns NaN there). -/
def parseHexPrefix : List Char → Option Nat
  | [] => none
  | c :: rest =>
    match hexDigit c with
    | none => none
    | some d =>
      match parseHexPrefix rest with
      | none => some d
      | some v => some (d * 16 ^ rest.length + v)

/-- Remove the first occurrence of the character h (String.replace with a
one-character search string replaces only the first occurrence). -/
def removeFirst (h : Char) : List Char → List Char
  | [] => []
  | c :: rest => if c = h then rest else c :: removeFirst h rest

/-- color.hexToColor.  The channel extraction (raw being a JS 32-bit
shift-and-mask) is congruent mod 256 to plain Nat division and masking,
which is what is used here.  A parse failure (NaN raw value) makes every
JS shift produce 0, hence the all-zero color. -/
def hexToColor (hex : String) : Color :=
  let hexValue := removeFirst '#' hex.data
  let hexValue :=
    if hexValue.length = 6 then hexValue ++ ['F', 'F']
    else if hexValue.length = 3 then
      (hexValue.flatMap fun c => [c, c]) ++ ['F', 'F']
    else []
  if hexValue.isEmpty then blackColor
  else
    match parseHexPrefix hexValue with
    | none => ⟨0, 0, 0, 0⟩
    | some raw => ⟨raw / 2 ^ 24 % 256, raw / 2 ^ 16 % 256, raw / 2 ^ 8 % 256, raw % 256⟩

/-- color.lerpColor followed by the Uint8ClampedArray store. -/
def lerpColor (ca cb : Color) (t : Rat) : Color :=
  ⟨u8clamp ((ca.r : Rat) + ((cb.r : Rat) - (ca.r : Rat)) * t),
   u8clamp ((ca.g : Rat) + ((cb.g : Rat) - (ca.g : Rat)) * t),
   u8clamp ((ca.b : Rat) + ((cb.b : Rat) - (ca.b : Rat)) * t),
   u8clamp ((ca.a : Rat) + ((cb.a : Rat) - (ca.a : Rat)) * t)⟩

/-- Grid state: dense particle list, dirty set, element blueprint.  The
source keeps the dirty set as a JS Set of particle object references; it
is modelled as a list of particle records (no claim reads it). -/
structure Grid where
  width : Int
  height : Int
  data : List Particle
  dirtyParticles : List Particle
  blueprint : Nat → Option ParticleData

/-- Grid.isInBounds. -/
def isInBounds (g : Grid) (x y : Int) : Bool :=
  decide (0 ≤ x) && decide (x < g.width) && decide (0 ≤ y) && decide (y < g.height)

/-- Grid.getParticleAt: null when out of bounds, otherwise the dense
slot.  A hole in the dense array (JS undefined) is also modelled as
none. -/
def getParticleAt (g : Grid) (x y : Int) : Option Particle :=
  if isInBounds g x y then g.data[(y * g.width + x).toNat]? else none

/-- Grid.getNeighborOf. -/
def getNeighborOf (g : Grid) (p : Particle) (off : Offset) : Option Particle :=
  getParticleAt g (p.position.x + off.dx) (p.position.y + off.dy)

/-- Grid.getNeighborsOf: map the offsets, drop the nulls, then apply the
optional category and id filters conjunctively. -/
def getNeighborsOf (g : Grid) (p : Particle) (offs : List Offset)
    (withCategory withId : Option Nat) : List Particle :=
  ((offs.map (getNeighborOf g p)).filterMap id).filter fun nb =>
    (match withCategory with
     | none => true
     | some c => nb.category == c) &&
    (match withId with
     | none => true
     | some i => nb.id == i)

/-- Grid.markDirty: add the particle, and when requested all existing
neighbors, to the dirty set. -/
def markDirty (g : Grid) (p : Particle) (markNeighborDirty : Bool) : Grid :=
  let g1 := { g with dirtyParticles := g.dirtyParticles ++ [p] }
  if markNeighborDirty then
    { g1 with dirtyParticles :=
        g1.dirtyParticles ++ getNeighborsOf g1 p allNeighbors none none }
  else g1

/-- Grid.createParticle core: build the particle record for given element
data and one random draw (the color lerp step).  Returns none for an
unknown category, as the source does after consuming the draw. -/
def buildParticle (pd : ParticleData) (rand : Rat) : Option Particle :=
  let steps : Rat := (6 : Rat) - 1
  let t : Rat := (jsRound (rand * steps) : Rat) / steps
  let baseColor := hexToColor pd.baseColor
  let variantColor := hexToColor pd.variantColor
  let newColor := lerpColor baseColor variantColor t
  let base : Particle :=
    { handle := -1, id := pd.id, name := pd.name, color := newColor,
      position := ⟨-1, -1⟩, index := 0, isMovable := pd.isMovable,
      density := pd.density, category := pd.category }
  if pd.category = 0 then some base
  else if pd.category = 1 then some base
  else if pd.category = 2 then
    some { base with concentration := some 0, maxConcentration := pd.maxConcentration }
  else if pd.category = 3 then some base
  else if pd.category = 4 then
    some { base with reposeAngle := pd.reposeAngle,
                     reposeDirections := pd.reposeDirections }
  else if pd.category = 5 then some { base with node := some (-1) }
  else none

/-- Grid.createParticle: none without drawing when the blueprint has no
entry for the id; otherwise one random draw and the record build. -/
def createParticle (g : Grid) (pid : Nat) (σ : Rng) (k : Nat) :
    Option Particle × Nat :=
  match g.blueprint pid with
  | none => (none, k)
  | some pd => (buildParticle pd (σ k), k + 1)

/-- Grid.createParticleAt.  Returns none for the JS crash that the
source's non-null assertion hides when the blueprint has no entry (or an
unknown category); otherwise the new grid, the boolean result and the
advanced draw counter. -/
def createParticleAt (g : Grid) (x y : Int) (pid : Nat)
    (markAsDirty markNeighborDirty : Bool) (σ : Rng) (k : Nat) :
    Option (Grid × Bool × Nat) :=
  if isInBounds g x y then
    match createParticle g pid σ k with
    | (none, _) => none
    | (some p0, k1) =>
      let p := { p0 with position := ⟨x, y⟩, index := y * g.width + x }
      let g1 := if markAsDirty then markDirty g p markNeighborDirty else g
      some ({ g1 with data := g1.data.set (y * g.width + x).toNat p }, true, k1)
  else some (g, false, k)

/-- Result of the movement primitive: the target-and-mover pair on a
successful swap (the source returns the target object and mutates the
mover in place; callers read both), the resulting grid and the advanced
draw counter. -/
structure TryMoveResult where
  result : Option (Particle × Particle)
  grid : Grid
  k : Nat

/-- One tier of Grid.tryMoveParticle: iterate the (already shuffled)
candidate offsets; per candidate an optional x-bump coin, the target
lookup, and the movability/density check; on success the swap of the two
dense slots and of the two records' position and index fields. -/
def tryCandidates (g : Grid) (p : Particle) (cands : List Offset)
    (bumpThemNerds markAsDirty markNeighborsAsDirty : Bool)
    (σ : Rng) (k : Nat) : TryMoveResult :=
  match cands with
  | [] => ⟨none, g, k⟩
  | d :: rest =>
    let finalDX := if bumpThemNerds ∧ (1 : Rat)/2 < σ k then d.dx * -1 else d.dx
    let k1 := if bumpThemNerds then k + 1 else k
    let targetX := p.position.x + finalDX
    let targetY := p.position.y + d.dy
    match getParticleAt g targetX targetY with
    | none => tryCandidates g p rest bumpThemNerds markAsDirty markNeighborsAsDirty σ k1
    | some target =>
      if target.isMovable && decide (target.density < p.density) then
        let newP := { p with position := target.position, index := target.index }
        let newT := { target with position := p.position, index := p.index }
        let data1 := g.data.set target.index.toNat newP
        let data2 := data1.set p.index.toNat newT
        let g1 := { g with data := data2 }
        let g2 :=
          if markAsDirty then
            markDirty (markDirty g1 newP markNeighborsAsDirty) newT markNeighborsAsDirty
          else g1
        ⟨some (newT, newP), g2, k1⟩
      else tryCandidates g p rest bumpThemNerds markAsDirty markNeighborsAsDirty σ k1

/-- Grid.tryMoveParticle over the tier list: shuffle each tier, try its
candidates, stop at the first success. -/
def tryMoveParticle (g : Grid) (p : Particle) (directionGroups : List (List Offset))
    (bumpThemNerds markAsDirty markNeighborsAsDirty : Bool)
    (σ : Rng) (k : Nat) : TryMoveResult :=
  match directionGroups with
  | [] => ⟨none, g, k⟩
  | tier :: rest =>
    let sh := shuffleArray σ k tier
    let r := tryCandidates g p sh.1 bumpThemNerds markAsDirty markNeighborsAsDirty σ sh.2
    match r.result with
    | some _ => r
    | none => tryMoveParticle r.grid p rest bumpThemNerds markAsDirty markNeighborsAsDirty σ r.k

/-- Grid.swapParticles: the source marks this DONOT CALL (WIP); its body
just returns null, leaving the grid untouched.  The engine nevertheless
calls it with two particle records. -/
def swapParticles (g : Grid) (_a _b : Particle)
    (_markAsDirty _markNeighborsAsDirty : Bool) : Grid :=
  g

/-- Square iteration order of Grid.fillCircleAt: i (the x offset) outer,
j (the y offset) inner, both from -radius to radius. -/
def fillCirclePairs (radius : Int) : List (Int × Int) :=
  ((List.range (radius + 1 - (-radius)).toNat).map fun (n : Nat) => -radius + (n : Int)).flatMap
    fun i => ((List.range (radius + 1 - (-radius)).toNat).map
        fun (n : Nat) => -radius + (n : Int)).map
      fun j => (i, j)

/-- One cell of Grid.fillCircleAt.  none models the JS crash hidden in
the source when a painted cell is a hole of the dense array
(undefined.id) or the element id is unknown to the blueprint; null from
an out-of-bounds read cannot reach the condition because out-of-bounds
cells were already skipped. -/
def fillCircleStep (x y radius : Int) (particleId : Nat) (σ : Rng)
    (acc : Grid × Nat) (ij : Int × Int) : Option (Grid × Nat) :=
      let gAcc := acc.1
      let i := ij.1
      let j := ij.2
      if radius * radius < i * i + j * j then some acc
      else
        let px := x + i
        let py := y + j
        if isInBounds gAcc px py then
          let doCreate : Option (Grid × Nat) :=
            match createParticleAt gAcc px py particleId true true σ acc.2 with
            | none => none
            | some (g2, _, k2) => some (g2, k2)
          if particleId = 0 then doCreate
          else
            match getParticleAt gAcc px py with
            | some prev => if prev.id = 0 then doCreate else some acc
            | none => none
        else some acc

/-- Grid.fillCircleAt over the square of candidate offsets. -/
def fillCircleAt (g : Grid) (x y radius : Int) (particleId : Nat)
    (σ : Rng) (k : Nat) : Option (Grid × Nat) :=
  (fillCirclePairs radius).foldlM (fillCircleStep x y radius particleId σ) (g, k)

/-- Grid.populateGrid cell enumeration: y outer from 0, x inner. -/
def populateCells (width height : Int) : List (Int × Int) :=
  ((List.range height.toNat).map fun (n : Nat) => (n : Int)).flatMap fun yy =>
    ((List.range width.toNat).map fun (n : Nat) => (n : Int)).map fun xx => (xx, yy)

/-- Grid.populateGrid: fill every cell with a freshly built particle of
the given id, setting position and index and marking each cell dirty.  A
null build would leave a permanent hole in the dense array, which the
dense-list model cannot represent, so the embedding is none in that
case (the constructor only uses the EMPTY id). -/
def populateStep (width : Int) (pid : Nat) (σ : Rng)
    (acc : Grid × Nat) (xy : Int × Int) : Option (Grid × Nat) :=
  match createParticle acc.1 pid σ acc.2 with
  | (none, _) => none
  | (some p0, k1) =>
    let index := xy.2 * width + xy.1
    let p := { p0 with position := ⟨xy.1, xy.2⟩, index := index }
    some ({ acc.1 with
              data := acc.1.data ++ [p],
              dirtyParticles := acc.1.dirtyParticles ++ [p] }, k1)

/-- Grid.populateGrid over its cell enumeration, growing the dense array
slot by slot from the empty grid. -/
def populateGrid (width height : Int) (bp : Nat → Option ParticleData)
    (pid : Nat) (σ : Rng) (k : Nat) : Option (Grid × Nat) :=
  (populateCells width height).foldlM (populateStep width pid σ)
    (⟨width, height, [], [], bp⟩, k)

/-- Grid constructor: empty dirty set, blueprint stored, every cell
populated with the EMPTY element (id 0). -/
def gridNew (width height : Int) (bp : Nat → Option ParticleData)
    (σ : Rng) (k : Nat) : Option (Grid × Nat) :=
  populateGrid width height bp 0 σ k

/-- equalisationGroup record of the source. -/
structure EqGroup where
  liquidParticle : List Particle
  emptyParticle : List Particle
deriving DecidableEq, Repr

/-- JS Set of indices: add is a no-op on a member, otherwise an append. -/
def addProc (s : List Int) (i : Int) : List Int :=
  if s.contains i then s else s ++ [i]

/-- Functional update of the groupMap record. -/
def mapSetIdx (m : Int → Option Nat) (i : Int) (gid : Nat) : Int → Option Nat :=
  fun j => if j = i then some gid else m j

/-- The push of the (particle, up-neighbor) pair into an equalisation
group that every branch of the scan performs when the up neighbor is the
EMPTY element. -/
def pushEqPair (upOpt : Option Particle) (particle : Particle) (gid : Nat)
    (eqs : List EqGroup) : List EqGroup :=
  match upOpt with
  | some up =>
    if up.id = 0 then
      List.modify
        (fun G => { liquidParticle := G.liquidParticle ++ [particle],
                    emptyParticle := G.emptyParticle ++ [up] }) gid eqs
    else eqs
  | none => eqs

/-- State of the single-scan union pass. -/
structure ScanState where
  groups : List (List Int)
  eqGroups : List EqGroup
  groupMap : Int → Option Nat

/-- One cell of Engine.groupParticles.  The groupMap lookups carry a
getD 0 totalization of the JS non-null assertion: a same-id left or up
neighbor was scanned earlier and every scanned cell is mapped, so the
default is never consulted in reachable states. -/
def scanCell (g : Grid) (category : Nat) (st : ScanState) (x y : Int) : ScanState :=
  let index : Int := y * g.width + x
  match getParticleAt g x y with
  | none => st
  | some particle =>
    if particle.category ≠ category then st
    else
      let upOpt := getNeighborOf g particle neighborUp
      let leftOpt := getNeighborOf g particle neighborLeft
      let hasUp := upOpt.any fun u => u.category == category && u.id == particle.id
      let hasLeft := leftOpt.any fun u => u.category == category && u.id == particle.id
      let leftIndex : Int := if hasLeft then y * g.width + (x - 1) else -1
      let upIndex : Int := if hasUp then (y + 1) * g.width + x else -1
      if ¬hasLeft ∧ ¬hasUp then
        let newGroupIndex := st.eqGroups.length
        let groups1 := st.groups ++ [[index]]
        let eqs1 := st.eqGroups ++ [⟨[], []⟩]
        let eqs2 := pushEqPair upOpt particle newGroupIndex eqs1
        ⟨groups1, eqs2, mapSetIdx st.groupMap index newGroupIndex⟩
      else if hasLeft ∧ ¬hasUp then
        let gid := (st.groupMap leftIndex).getD 0
        let groups1 := List.modify (fun grp => grp ++ [index]) gid st.groups
        let eqs1 := pushEqPair upOpt particle gid st.eqGroups
        ⟨groups1, eqs1, mapSetIdx st.groupMap index gid⟩
      else if ¬hasLeft ∧ hasUp then
        let gid := (st.groupMap upIndex).getD 0
        let groups1 := List.modify (fun grp => grp ++ [index]) gid st.groups
        let eqs1 := pushEqPair upOpt particle gid st.eqGroups
        ⟨groups1, eqs1, mapSetIdx st.groupMap index gid⟩
      else
        let upGid := (st.groupMap upIndex).getD 0
        let groups1 := List.modify (fun grp => grp ++ [index]) upGid st.groups
        let eqs1 := pushEqPair upOpt particle upGid st.eqGroups
        let map1 := mapSetIdx st.groupMap index upGid
        let leftGid := (map1 leftIndex).getD 0
        if leftGid ≠ upGid then
          let leftEq := eqs1.getD leftGid ⟨[], []⟩
          let eqs2 := List.modify
            (fun G => { liquidParticle := G.liquidParticle ++ leftEq.liquidParticle,
                        emptyParticle := G.emptyParticle ++ leftEq.emptyParticle })
            upGid eqs1
          let leftGroup := groups1.getD leftGid []
          let map2 := leftGroup.foldl (fun m idx => mapSetIdx m idx upGid) map1
          let groups2 := groups1.set leftGid []
          let eqs3 := eqs2.set leftGid ⟨[], []⟩
          ⟨groups2, eqs3, map2⟩
        else ⟨groups1, eqs1, map1⟩

/-- Scan order of Engine.groupParticles: y from height-1 down to 0, x
from 0 to width-1. -/
def scanCellsList (width height : Int) : List (Int × Int) :=
  ((List.range height.toNat).reverse.map fun n => (n : Int)).flatMap fun y =>
    ((List.range width.toNat).map fun n => (n : Int)).map fun x => (x, y)

/-- Engine.groupParticles: the single-scan union pass followed by the
filter that keeps only groups with more than 30 collected liquid
particles. -/
def groupParticles (g : Grid) (category : Nat) : List EqGroup :=
  let final := (scanCellsList g.width g.height).foldl
    (fun st xy => scanCell g category st xy.1 xy.2) ⟨[], [], fun _ => none⟩
  final.eqGroups.filter fun G => 30 < G.liquidParticle.length

/-- Engine.simulateEqualisation.  Sorts each surviving group (liquids by
descending y, empties by ascending y), then for every liquid index reads
the same empty index without a bounds check - none models the JS crash
when the empty list is shorter - and on a strictly-lower empty calls the
swapParticles stub and adds both (unchanged) indices to the processed
set. -/
def eqInnerStep (liquidParticles emptyParticle : List Particle)
    (acc2 : Grid × List Int) (i : Nat) : Option (Grid × List Int) :=
  match liquidParticles[i]? with
  | none => none
  | some liquidPar =>
    match emptyParticle[i]? with
    | none => none
    | some emptyPar =>
      if emptyPar.position.y < liquidPar.position.y then
        some (swapParticles acc2.1 liquidPar emptyPar true true,
              addProc (addProc acc2.2 liquidPar.index) emptyPar.index)
      else some acc2

/-- One surviving group of Engine.simulateEqualisation: sort the liquids
by descending y and the empties by ascending y, then run the unguarded
pairing loop. -/
def eqGroupStep (acc : Grid × List Int) (group : EqGroup) : Option (Grid × List Int) :=
  let liquidParticles := stableSortBy
    (fun a b => decide (b.position.y ≤ a.position.y)) group.liquidParticle
  let emptyParticle := stableSortBy
    (fun a b => decide (a.position.y ≤ b.position.y)) group.emptyParticle
  let swapsToDo := liquidParticles.length
  (List.range swapsToDo).foldlM (eqInnerStep liquidParticles emptyParticle) acc

def simulateEqualisation (g : Grid) (liquidGroup : List EqGroup)
    (processed : List Int) : Option (Grid × List Int) :=
  liquidGroup.foldlM eqGroupStep (g, processed)

/-- State threaded through one physics step.  The swapLog and dispatchLog
fields are ghost observers: swapLog records, for each successful
tryMoveParticle swap, the two endpoints' new indices exactly as they are
added to the processed set; dispatchLog records each particle index that
reaches the category switch together with the processed set at that
moment.  Neither influences execution. -/
structure StepState where
  grid : Grid
  processed : List Int
  swapLog : List (Int × Int)
  dispatchLog : List (Int × List Int)
  k : Nat

/-- Engine.handleLiquids direction groups. -/
def liquidDirections : List (List Offset) :=
  [[⟨0, -1⟩], [⟨-1, -1⟩, ⟨1, -1⟩], [⟨-1, 0⟩, ⟨1, 0⟩]]

/-- Engine.handleLiquids. -/
def handleLiquids (σ : Rng) (st : StepState) (particle : Particle) : StepState :=
  let r := tryMoveParticle st.grid particle liquidDirections false true true σ st.k
  match r.result with
  | some (newT, newP) =>
    { st with grid := r.grid, k := r.k,
              processed := addProc (addProc st.processed newP.index) newT.index,
              swapLog := st.swapLog ++ [(newP.index, newT.index)] }
  | none => { st with grid := r.grid, k := r.k }

/-- Engine.handleGases: one uniform draw over the 8 neighbor keys, then
the movement primitive on that single direction.  The getD default is
never consulted under a valid random stream. -/
def handleGases (σ : Rng) (st : StepState) (particle : Particle) : StepState :=
  let dir := neighborKeyOffsets.getD (⌊σ st.k * 8⌋).toNat ⟨0, 0⟩
  let r := tryMoveParticle st.grid particle [[dir]] false true true σ (st.k + 1)
  match r.result with
  | some (newT, newP) =>
    { st with grid := r.grid, k := r.k,
              processed := addProc (addProc st.processed newP.index) newT.index,
              swapLog := st.swapLog ++ [(newP.index, newT.index)] }
  | none => { st with grid := r.grid, k := r.k }

/-- Engine.handleSands: the element's precomputed repose directions with
the x-bump enabled.  A NaN-poisoned repose computation (modelled as
none) behaves like an empty tier list: no candidate ever passes the
bounds check in the source either. -/
def handleSands (σ : Rng) (st : StepState) (particle : Particle) : StepState :=
  let directions := particle.reposeDirections.getD []
  let r := tryMoveParticle st.grid particle directions true true true σ st.k
  match r.result with
  | some (newT, newP) =>
    { st with grid := r.grid, k := r.k,
              processed := addProc (addProc st.processed newP.index) newT.index,
              swapLog := st.swapLog ++ [(newP.index, newT.index)] }
  | none => { st with grid := r.grid, k := r.k }

/-- The per-particle dispatch of Engine.stepPhysics: skip an
already-processed index, otherwise dispatch by category (solids,
electronics and unknown categories fall through untouched). -/
def dispatchParticle (σ : Rng) (st : StepState) (particle : Particle) : StepState :=
  if st.processed.contains particle.index then st
  else
    let st1 := { st with dispatchLog := st.dispatchLog ++ [(particle.index, st.processed)] }
    if particle.category = 2 then handleLiquids σ st1 particle
    else if particle.category = 3 then handleGases σ st1 particle
    else if particle.category = 4 then handleSands σ st1 particle
    else st1

/-- Engine.stepPhysics: clear the processed set, shuffle the update list,
stable-sort it by ascending y, dispatch every particle, then run the
liquid grouping pass and the equalisation step. -/
def stepPhysics (g : Grid) (particlesToUpdate : List Particle)
    (σ : Rng) (k : Nat) : Option StepState :=
  let sh := shuffleArray σ k particlesToUpdate
  let sorted := stableSortBy (fun a b => decide (a.position.y ≤ b.position.y)) sh.1
  let st1 := sorted.foldl (dispatchParticle σ) ⟨g, [], [], [], sh.2⟩
  match simulateEqualisation st1.grid (groupParticles st1.grid 2) st1.processed with
  | none => none
  | some gp => some { st1 with grid := gp.1, processed := gp.2 }

/-- JS Math.round on a real argument (the repose trigonometry runs on
floats, idealised here over the reals). -/
noncomputable def jsRoundR (x : ℝ) : Int := ⌊x + 1/2⌋

/-- Utilities.calculateRepose: clamp the angle to [10, 80], convert to
radians; below 50 degrees three tiers using the rounded cotangent,
otherwise two tiers using the rounded tangent. -/
noncomputable def calculateRepose (angleDeg : ℝ) : List (List Offset) :=
  let angle := max 10 (min angleDeg 80)
  let t := angle * Real.pi / 180
  let directions : List (List Offset) := [[⟨0, -1⟩]]
  if angle < 50 then
    let x := jsRoundR (1 / Real.tan t)
    directions ++ [[⟨1, -1⟩, ⟨-1, -1⟩]] ++ [[⟨x, -1⟩, ⟨x * -1, -1⟩]]
  else
    let y := jsRoundR (Real.tan t)
    directions ++ [[⟨1, -y⟩, ⟨-1, -y⟩]]

/-- The repose formula exactly as the specification states it, with the
ceiling of the cotangent respectively tangent.  This definition follows
the spec text, for comparison against calculateRepose. -/
noncomputable def reposeSpecCeil (angleDeg : ℝ) : List (List Offset) :=
  let angle := max 10 (min angleDeg 80)
  let t := angle * Real.pi / 180
  if angle < 50 then
    [[⟨0, -1⟩], [⟨1, -1⟩, ⟨-1, -1⟩],
     [⟨⌈1 / Real.tan t⌉, -1⟩, ⟨-⌈1 / Real.tan t⌉, -1⟩]]
  else
    [[⟨0, -1⟩], [⟨1, -⌈Real.tan t⌉⟩, ⟨-1, -⌈Real.tan t⌉⟩]]

/-- The repose formula of the spec amended to use JS rounding (round
half up) instead of the ceiling. -/
noncomputable def reposeSpecRound (angleDeg : ℝ) : List (List Offset) :=
  let angle := max 10 (min angleDeg 80)
  let t := angle * Real.pi / 180
  if angle < 50 then
    [[⟨0, -1⟩], [⟨1, -1⟩, ⟨-1, -1⟩],
     [⟨jsRoundR (1 / Real.tan t), -1⟩, ⟨jsRoundR (1 / Real.tan t) * -1, -1⟩]]
  else
    [[⟨0, -1⟩], [⟨1, -jsRoundR (Real.tan t)⟩, ⟨-1, -jsRoundR (Real.tan t)⟩]]

/-- A framebuffer pixel write request. -/
structure Pixel where
  index : Int
  value : Color
deriving DecidableEq, Repr

/-- The constant brush outline color (227, 227, 227, 180). -/
def brushOutlineColor : Color := ⟨227, 227, 227, 180⟩

/-- plotOctets of Renderer.getBrushOutline: for each quadrant sign pair
emit the (x, y) mirror and the (y, x) mirror, each clipped to the grid,
with the framebuffer index (height - newY) * width + newX that the
source computes. -/
def plotOctets (cx cy width height x y : Int) : List Pixel :=
  ([-1, 1] : List Int).flatMap fun bigY =>
    ([-1, 1] : List Int).flatMap fun bigX =>
      let newX := cx + x * bigX
      let newY := cy + y * bigY
      let newx := cx + y * bigX
      let newy := cy + x * bigY
      (if 0 ≤ newX ∧ newX < width ∧ 0 ≤ newY ∧ newY < height then
        [⟨(height - newY) * width + newX, brushOutlineColor⟩]
      else []) ++
      (if 0 ≤ newx ∧ newx < width ∧ 0 ≤ newy ∧ newy < height then
        [⟨(height - newy) * width + newx, brushOutlineColor⟩]
      else [])

/-- The midpoint-circle loop of Renderer.getBrushOutline. -/
def brushLoop (cx cy width height : Int) (x y P : Int) : List Pixel :=
  if _h : y < x then
    let y1 := y + 1
    let x1 := if P < 0 then x else x - 1
    let P1 := if P < 0 then P + 2 * y1 + 1 else P + 2 * (y1 - x1) + 1
    plotOctets cx cy width height x1 y1 ++ brushLoop cx cy width height x1 y1 P1
  else []
termination_by (x - y).toNat
decreasing_by
  split <;> omega

/-- Renderer.getBrushOutline: seed x = radius, y = 0, P = radius - radius,
plot, then run the midpoint loop. -/
def getBrushOutline (centerX centerY radius width height : Int) : List Pixel :=
  plotOctets centerX centerY width height radius 0 ++
    brushLoop centerX centerY width height radius 0 (radius - radius)

/-- Whitespace for the purposes of String.prototype.trim (the common
ASCII subset; the data format only uses these). -/
def isWsChar (c : Char) : Bool :=
  c == ' ' || c == '\t' || c == '\n' || c == '\r'

/-- Trim from both ends. -/
def trimChars (l : List Char) : List Char :=
  ((l.dropWhile isWsChar).reverse.dropWhile isWsChar).reverse

/-- JS String.prototype.split on a one-character separator. -/
def splitOnChar (sep : Char) : List Char → List (List Char)
  | [] => [[]]
  | c :: rest =>
    match splitOnChar sep rest with
    | [] => [[]]
    | hd :: tl => if c = sep then [] :: hd :: tl else (c :: hd) :: tl

/-- Decimal digit value. -/
def digitVal (c : Char) : Option Nat :=
  if '0' ≤ c ∧ c ≤ '9' then some (c.toNat - '0'.toNat) else none

/-- Maximal digit prefix and the rest. -/
def takeDigits : List Char → List Nat × List Char
  | [] => ([], [])
  | c :: rest =>
    match digitVal c with
    | some d =>
      let (ds, r) := takeDigits rest
      (d :: ds, r)
    | none => ([], c :: rest)

/-- Digits to a natural number. -/
def digitsToNat (ds : List Nat) : Nat :=
  ds.foldl (fun a d => a * 10 + d) 0

/-- JS parseInt(s, 10): leading whitespace, optional sign, maximal digit
prefix, trailing garbage ignored; none models the NaN result when no
digit follows. -/
def jsParseInt (s : List Char) : Option Int :=
  let l := s.dropWhile isWsChar
  let (sign, l1) : Int × List Char :=
    match l with
    | '-' :: r => (-1, r)
    | '+' :: r => (1, r)
    | _ => (1, l)
  match takeDigits l1 with
  | ([], _) => none
  | (ds, _) => some (sign * (digitsToNat ds : Int))

/-- JS parseFloat: optional sign, decimal mantissa (digits, optional
fraction), optional exponent; maximal valid prefix; none models NaN when
no mantissa digit exists. -/
def jsParseFloat (s : List Char) : Option Rat :=
  let l := s.dropWhile isWsChar
  let (sign, l1) : Rat × List Char :=
    match l with
    | '-' :: r => (-1, r)
    | '+' :: r => (1, r)
    | _ => (1, l)
  let (ids, r1) := takeDigits l1
  let (fds, r2) :=
    match r1 with
    | '.' :: r => takeDigits r
    | _ => ([], r1)
  if ids.isEmpty ∧ fds.isEmpty then none
  else
    let mantissa : Rat :=
      (digitsToNat ids : Rat) + (digitsToNat fds : Rat) / ((10 : Rat) ^ fds.length)
    let expPart : Int :=
      match r2 with
      | 'e' :: r => expDigits r
      | 'E' :: r => expDigits r
      | _ => 0
    let scaled :=
      if 0 ≤ expPart then mantissa * (10 : Rat) ^ expPart.toNat
      else mantissa / (10 : Rat) ^ (-expPart).toNat
    some (sign * scaled)
where
  /-- Exponent digits with optional sign; an exponent without digits is
  ignored, as parseFloat takes the maximal valid prefix. -/
  expDigits (r : List Char) : Int :=
    let (esign, r1) : Int × List Char :=
      match r with
      | '-' :: rr => (-1, rr)
      | '+' :: rr => (1, rr)
      | _ => (1, r)
    match takeDigits r1 with
    | ([], _) => 0
    | (ds, _) => esign * (digitsToNat ds : Int)

/-- One console.warn of the loader (the exact message text is a
template of the block id; only the warning kind and id matter here). -/
inductive LoadWarning where
  | duplicateId (id : Int)
  | corruptedBlock (id : Int)
deriving DecidableEq, Repr

/-- RawParticleData of the loader, with the source's optional snake_case
keys.  An inner none models a field that was set to an IEEE NaN by a
failed numeric parse; an outer none models a field never set. -/
structure RawParticleData where
  name : Option String := none
  category : Option (Option Int) := none
  base_color : Option String := none
  variant_color : Option String := none
  is_movable : Option Bool := none
  density : Option (Option Rat) := none
  max_concentration : Option (Option Rat) := none
  repose_angle : Option (Option Rat) := none
deriving DecidableEq, Repr

/-- Line-loop state of loadParticleData. -/
structure LoaderState where
  raw : List (Int × RawParticleData)
  processedIds : List Int
  currentId : Option Int
  warnings : List LoadWarning

/-- Replace-or-append write of rawRetrievedData[id]. -/
def rawSet (m : List (Int × RawParticleData)) (i : Int) (v : RawParticleData) :
    List (Int × RawParticleData) :=
  if m.any fun e => e.1 == i then
    m.map fun e => if e.1 == i then (i, v) else e
  else m ++ [(i, v)]

/-- In-place update of the current block's raw record. -/
def rawUpdate (m : List (Int × RawParticleData)) (i : Int)
    (f : RawParticleData → RawParticleData) : List (Int × RawParticleData) :=
  m.map fun e => if e.1 == i then (i, f e.2) else e

def keyName : String := "name"

def keyCategory : String := "category"

def keyBaseColor : String := "base_color"

def keyVariantColor : String := "variant_color"

def keyIsMovable : String := "is_movable"

def keyDensity : String := "density"

def keyMaxConcentration : String := "max_concentration"

def keyReposeAngle : String := "repose_angle"

def literalTrue : String := "true"

/-- The key-value switch of the loader's line loop. -/
def applyKeyValue (key value : List Char) (r : RawParticleData) : RawParticleData :=
  if key = keyName.data then { r with name := some ⟨value⟩ }
  else if key = keyCategory.data then { r with category := some (jsParseInt value) }
  else if key = keyBaseColor.data then { r with base_color := some ⟨value⟩ }
  else if key = keyVariantColor.data then { r with variant_color := some ⟨value⟩ }
  else if key = keyIsMovable.data then { r with is_movable := some (value = literalTrue.data) }
  else if key = keyDensity.data then { r with density := some (jsParseFloat value) }
  else if key = keyMaxConcentration.data then
    { r with max_concentration := some ((jsParseInt value).map fun n => (n : Rat)) }
  else if key = keyReposeAngle.data then { r with repose_angle := some (jsParseFloat value) }
  else r

/-- One line of the loader's first pass. -/
def loaderLine (st : LoaderState) (line : List Char) : LoaderState :=
  let thisLine := trimChars line
  if thisLine.length = 0 ∨ thisLine.head? = some '#' then st
  else if thisLine.head? = some '[' ∧ thisLine.getLast? = some ']' then
    let idStr := (thisLine.drop 1).dropLast
    match jsParseInt idStr with
    | none => { st with currentId := none }
    | some id =>
      if id < 10 then { st with currentId := none }
      else if st.processedIds.contains id then
        { st with currentId := none,
                  warnings := st.warnings ++ [LoadWarning.duplicateId id] }
      else
        { st with processedIds := st.processedIds ++ [id],
                  currentId := some id,
                  raw := rawSet st.raw id {} }
  else
    match st.currentId with
    | none => st
    | some cid =>
      let parts := (splitOnChar ':' thisLine).map trimChars
      if parts.length = 2 then
        let kv := applyKeyValue (parts.getD 0 []) (parts.getD 1 [])
        { st with raw := rawUpdate st.raw cid kv }
      else st

/-- Replace-or-append write of the final element map. -/
def mapSetData (m : List (Nat × ParticleData)) (i : Nat) (v : ParticleData) :
    List (Nat × ParticleData) :=
  if m.any fun e => e.1 == i then
    m.map fun e => if e.1 == i then (i, v) else e
  else m ++ [(i, v)]

/-- Lookup in the final element map. -/
def lookupElement (m : List (Nat × ParticleData)) (i : Nat) : Option ParticleData :=
  (m.find? fun e => e.1 == i).map fun e => e.2

/-- The checksum-and-finalize pass of the loader over one raw block.  A
density or concentration that was set but is NaN cannot live in the
rational model; that unreachable-for-our-claims case is totalized to 0.
A sand block whose repose angle is missing or NaN gets the NaN-poisoned
repose computation, modelled as none. -/
noncomputable def finalizeBlock (acc : List (Nat × ParticleData) × List LoadWarning)
    (entry : Int × RawParticleData) : List (Nat × ParticleData) × List LoadWarning :=
  let numberId := entry.1
  let rawData := entry.2
  match rawData.name, rawData.category, rawData.base_color, rawData.variant_color,
      rawData.is_movable, rawData.density with
  | some nm, some cat, some bc, some vc, some mv, some dens =>
    let base : ParticleData :=
      { id := numberId.toNat, name := nm, baseColor := bc, variantColor := vc,
        isMovable := mv, density := dens.getD 0, category := 0 }
    if cat = some 1 then (mapSetData acc.1 numberId.toNat { base with category := 1 }, acc.2)
    else if cat = some 2 then
      (mapSetData acc.1 numberId.toNat
        { base with category := 2,
                    maxConcentration := rawData.max_concentration.map fun q => q.getD 0 },
       acc.2)
    else if cat = some 3 then
      (mapSetData acc.1 numberId.toNat { base with category := 3 }, acc.2)
    else if cat = some 4 then
      (mapSetData acc.1 numberId.toNat
        { base with category := 4,
                    reposeAngle := match rawData.repose_angle with
                      | some (some a) => some a
                      | _ => none,
                    reposeDirections := match rawData.repose_angle with
                      | some (some a) => some (calculateRepose (a : ℝ))
                      | _ => none },
       acc.2)
    else if cat = some 5 then
      (mapSetData acc.1 numberId.toNat { base with category := 5 }, acc.2)
    else (acc.1, acc.2)
  | _, _, _, _, _, _ =>
    (acc.1, acc.2 ++ [LoadWarning.corruptedBlock numberId])

def emptyElementName : String := "Empty"

def emptyElementHex : String := "#0E0E11"

/-- The hardcoded EMPTY element injected at id 0. -/
def emptyElementData : ParticleData :=
  { id := 0, name := emptyElementName, baseColor := emptyElementHex,
    variantColor := emptyElementHex, isMovable := true, density := 0, category := 0 }

/-- loadParticleData on the file text: the line loop, the finalize pass
(the source iterates the raw record in ascending numeric key order; the
model iterates in insertion order, which yields the same map and, for
ascending inputs, the same warning order), then the EMPTY injection. -/
noncomputable def loadParticleData (fileText : String) :
    List (Nat × ParticleData) × List LoadWarning :=
  let lines := splitOnChar '\n' fileText.data
  let st := lines.foldl loaderLine ⟨[], [], none, []⟩
  let fin := st.raw.foldl finalizeBlock ([], st.warnings)
  (mapSetData fin.1 0 emptyElementData, fin.2)

/-! Test fixtures: a small element blueprint and hand-built coherent
grids used as concrete inputs for the theorems below.  The particle
records carry a fixed color (the color channel is irrelevant to every
claim about grid behaviour). -/

def fixtureColor : Color := ⟨10, 20, 30, 255⟩

def hexWater : String := "#2244FF"

def hexStone : String := "#555555"

/-- Blueprint entry for the EMPTY element, as the loader hardcodes it. -/
def bpEmpty : ParticleData := emptyElementData

/-- Blueprint entry for a water-like liquid, density 1. -/
def bpWater : ParticleData :=
  { id := 10, name := emptyElementName, baseColor := hexWater, variantColor := hexWater,
    isMovable := true, density := 1, category := 2, maxConcentration := some 100 }

/-- Blueprint entry for an immovable stone solid, density 10. -/
def bpStone : ParticleData :=
  { id := 11, name := emptyElementName, baseColor := hexStone, variantColor := hexStone,
    isMovable := false, density := 10, category := 1 }

/-- The fixture element map. -/
def bpTest : Nat → Option ParticleData :=
  fun n => if n = 0 then some bpEmpty
    else if n = 10 then some bpWater
    else if n = 11 then some bpStone
    else none

/-- A hand-built EMPTY particle at (x, y) of a grid of the given width. -/
def mkEmpty (x y w : Int) : Particle :=
  { handle := -1, id := 0, name := emptyElementName, color := fixtureColor,
    position := ⟨x, y⟩, index := y * w + x, isMovable := true, density := 0,
    category := 0 }

/-- A hand-built water particle at (x, y). -/
def mkWater (x y w : Int) : Particle :=
  { handle := -1, id := 10, name := emptyElementName, color := fixtureColor,
    position := ⟨x, y⟩, index := y * w + x, isMovable := true, density := 1,
    category := 2, concentration := some 0, maxConcentration := some 100 }

/-- A hand-built immovable stone particle at (x, y). -/
def mkStone (x y w : Int) : Particle :=
  { handle := -1, id := 11, name := emptyElementName, color := fixtureColor,
    position := ⟨x, y⟩, index := y * w + x, isMovable := false, density := 10,
    category := 1 }

/-- Build a dense grid from a per-cell water predicate. -/
def mkTestGrid (w h : Int) (isWater : Int → Int → Bool) : Grid :=
  ⟨w, h,
   (List.range (w * h).toNat).map fun i =>
     let x : Int := (i : Int) % w
     let y : Int := (i : Int) / w
     if isWater x y then mkWater x y w else mkEmpty x y w,
   [], bpTest⟩

/-- The 2-wide, 3-tall grid of the double-move scenario: empties at
(0,0), (1,0) and (0,2); water at (0,1) and (1,2); stone at (1,1). -/
def gridC4 : Grid :=
  ⟨2, 3,
   [mkEmpty 0 0 2, mkEmpty 1 0 2, mkWater 0 1 2, mkStone 1 1 2,
    mkEmpty 0 2 2, mkWater 1 2 2],
   [], bpTest⟩

/-- The 11 by 3 water block of the equalisation-threshold scenario, with
a one-cell empty margin: 33 water cells, 11 of them with an empty cell
directly above. -/
def gridBlock33 : Grid :=
  mkTestGrid 13 6 fun x y => decide (1 ≤ x) && decide (x ≤ 11) && decide (1 ≤ y) && decide (y ≤ 3)

/-- The 10 by 3 water block variant: 30 water cells. -/
def gridBlock30 : Grid :=
  mkTestGrid 12 6 fun x y => decide (1 ≤ x) && decide (x ≤ 10) && decide (1 ≤ y) && decide (y ≤ 3)

/-- A 31-wide single water row with empties above: 31 water cells, all
31 with an empty cell directly above. -/
def gridRow31 : Grid :=
  mkTestGrid 31 2 fun _ y => decide (y = 0)

/-- The staircase grid: a 31-wide water row at y = 1 plus a water column
at (0,2) and (0,3); its group collects 31 liquid cells and one of them,
(0,3), sits strictly above the lowest collected empty cell. -/
def gridStair : Grid :=
  mkTestGrid 31 5 fun x y =>
    (decide (y = 1)) || (decide (x = 0) && (decide (y = 2) || decide (y = 3)))

/-- The constant-zero random stream used for concrete runs. -/
def zeroRng : Rng := fun _ => 0

/-- Index coherence of a dense particle list for a width-w, height-h
grid: exactly w times h slots, and the particle stored at flat slot i
carries index i and the position (i mod w, i div w). -/
def CoherentData (w ht : Int) (data : List Particle) : Prop :=
  data.length = (w * ht).toNat ∧
  ∀ i (h : i < data.length),
    (data.get ⟨i, h⟩).index = (i : Int) ∧
    (data.get ⟨i, h⟩).position.x = (i : Int) % w ∧
    (data.get ⟨i, h⟩).position.y = (i : Int) / w

/-- Index coherence of a grid. -/
def Coherent (g : Grid) : Prop :=
  CoherentData g.width g.height g.data

/-- A candidate offset (dx, dy) admits a swap for p on g: the target
cell holds a movable particle of strictly smaller density. -/
def SwapOk (g : Grid) (p : Particle) (dx dy : Int) : Prop :=
  ∃ t, getParticleAt g (p.position.x + dx) (p.position.y + dy) = some t ∧
    t.isMovable = true ∧ t.density < p.density

/-- The blueprint resolves the id to element data of a known category
carrying that id (what the loader always produces). -/
def ValidElement (g : Grid) (pid : Nat) : Prop :=
  ∃ pd, g.blueprint pid = some pd ∧ pd.id = pid ∧ pd.category ≤ 5

/-! Generic fold invariants. -/

theorem foldl_inv {α β : Type _} (f : β → α → β) (P : β → Prop)
    (hf : ∀ b a, P b → P (f b a)) :
    ∀ (l : List α) (b : β), P b → P (l.foldl f b) := by
  intro l
  induction l with
  | nil => intro b hb; exact hb
  | cons a l ih => intro b hb; exact ih (f b a) (hf b a hb)

theorem foldlM_option_inv {α β : Type _} (f : β → α → Option β) (P : β → Prop)
    (hf : ∀ b a r, f b a = some r → P b → P r) :
    ∀ (l : List α) (b r : β), List.foldlM f b l = some r → P b → P r := by
  intro l
  induction l with
  | nil =>
    intro b r hr hb
    rw [List.foldlM_nil] at hr
    exact (Option.some.inj hr) ▸ hb
  | cons a l ih =>
    intro b r hr hb
    rw [List.foldlM_cons] at hr
    cases hfa : f b a with
    | none => rw [hfa] at hr; simp at hr
    | some b1 =>
      rw [hfa] at hr
      simp only [Option.bind_eq_bind, Option.some_bind] at hr
      exact ih b1 r hr (hf b a b1 hfa hb)

theorem foldlM_option_total {α β : Type _} (f : β → α → Option β) (P : β → Prop) :
    ∀ (l : List α), (∀ b a, a ∈ l → P b → ∃ b1, f b a = some b1 ∧ P b1) →
      ∀ b, P b → ∃ r, List.foldlM f b l = some r ∧ P r := by
  intro l
  induction l with
  | nil => intro _ b hb; exact ⟨b, rfl, hb⟩
  | cons a l ih =>
    intro hstep b hb
    obtain ⟨b1, hfa, hb1⟩ := hstep b a (List.mem_cons_self a l) hb
    obtain ⟨r, hfold, hr⟩ :=
      ih (fun b2 a2 ha2 => hstep b2 a2 (List.mem_cons_of_mem a ha2)) b1 hb1
    refine ⟨r, ?_, hr⟩
    simp only [List.foldlM, hfa, Option.bind_some]
    exact hfold

theorem mem_modify {α : Type _} (f : α → α) (n : Nat) (l : List α) (x : α)
    (hx : x ∈ List.modify f n l) : x ∈ l ∨ ∃ y, y ∈ l ∧ x = f y := by
  rw [List.modify_eq_set_get?] at hx
  cases h : l.get? n with
  | none => rw [h] at hx; exact Or.inl hx
  | some a =>
    rw [h] at hx
    simp only [Option.map_some, Option.getD_some] at hx
    rcases List.mem_or_eq_of_mem_set hx with h2 | h2
    · exact Or.inl h2
    · refine Or.inr ⟨a, ?_, h2⟩
      rw [List.get?_eq_getElem?] at h
      exact List.getElem?_mem h

theorem mem_of_set {α : Type _} (l : List α) (n : Nat) (b x : α)
    (hx : x ∈ l.set n b) : x ∈ l ∨ x = b := by
  rcases List.mem_or_eq_of_mem_set hx with h | h
  · exact Or.inl h
  · exact Or.inr h

theorem mem_swapElems {α : Type _} (l : List α) (i j : Nat) (x : α)
    (hx : x ∈ swapElems l i j) : x ∈ l := by
  unfold swapElems at hx
  cases hi : l[i]? with
  | none => rw [hi] at hx; cases hj : l[j]? <;> rw [hj] at hx <;> exact hx
  | some a =>
    rw [hi] at hx
    cases hj : l[j]? with
    | none => rw [hj] at hx; exact hx
    | some b =>
      rw [hj] at hx
      rcases mem_of_set _ _ _ _ hx with h | h
      · rcases mem_of_set _ _ _ _ h with h2 | h2
        · exact h2
        · exact h2 ▸ List.getElem?_mem hj
      · exact h ▸ List.getElem?_mem hi

theorem mem_shuffle {α : Type _} (σ : Rng) (k : Nat) (l : List α) (x : α)
    (hx : x ∈ (shuffleArray σ k l).1) : x ∈ l := by
  unfold shuffleArray at hx
  have : ∀ (idxs : List Nat) (acc : List α × Nat),
      (∀ y ∈ acc.1, y ∈ l) → ∀ y ∈ (idxs.foldl (shuffleStep σ) acc).1, y ∈ l := by
    intro idxs
    induction idxs with
    | nil => intro acc hacc y hy; exact hacc y hy
    | cons i idxs ih =>
      intro acc hacc y hy
      refine ih (shuffleStep σ acc i) ?_ y hy
      intro z hz
      unfold shuffleStep at hz
      exact hacc z (mem_swapElems _ _ _ _ hz)
  exact this _ (l, k) (fun y hy => hy) x hx

theorem length_insertLe {α : Type _} (le : α → α → Bool) (x : α) :
    ∀ l : List α, (insertLe le x l).length = l.length + 1 := by
  intro l
  induction l with
  | nil => rfl
  | cons y ys ih =>
    unfold insertLe
    split
    · simp [ih]
    · simp

theorem length_stableSortBy {α : Type _} (le : α → α → Bool) (l : List α) :
    (stableSortBy le l).length = l.length := by
  unfold stableSortBy
  have : ∀ (l : List α) (acc : List α),
      (l.foldl (fun a x => insertLe le x a) acc).length = acc.length + l.length := by
    intro l
    induction l with
    | nil => intro acc; simp
    | cons x xs ih =>
      intro acc
      simp only [List.foldl_cons]
      rw [ih, length_insertLe]
      simp only [List.length_cons]
      omega
  simpa using this l []

/-! The equal-lengths invariant of the grouping scan. -/

/-- Every group's two payload lists have the same length. -/
def EqLens (eqs : List EqGroup) : Prop :=
  ∀ G ∈ eqs, G.liquidParticle.length = G.emptyParticle.length

theorem eqLens_pushEqPair (upOpt : Option Particle) (particle : Particle)
    (gid : Nat) (eqs : List EqGroup) (h : EqLens eqs) :
    EqLens (pushEqPair upOpt particle gid eqs) := by
  intro G hG
  cases upOpt with
  | none => exact h G hG
  | some up =>
    simp only [pushEqPair] at hG
    by_cases hid : up.id = 0
    · rw [if_pos hid] at hG
      rcases mem_modify _ _ _ _ hG with hmem | ⟨y, hy, hGy⟩
      · exact h G hmem
      · subst hGy
        simp only [List.length_append, List.length_cons, List.length_nil]
        rw [h y hy]
    · rw [if_neg hid] at hG
      exact h G hG

theorem eqLens_getD (eqs : List EqGroup) (h : EqLens eqs) (i : Nat) :
    (eqs.getD i ⟨[], []⟩).liquidParticle.length =
      (eqs.getD i ⟨[], []⟩).emptyParticle.length := by
  rw [List.getD_eq_getElem?_getD]
  cases he : eqs[i]? with
  | none => rfl
  | some G => simpa using h G (List.getElem?_mem he)

theorem eqLens_set_empty (eqs : List EqGroup) (h : EqLens eqs) (i : Nat) :
    EqLens (eqs.set i ⟨[], []⟩) := by
  intro G hG
  rcases List.mem_or_eq_of_mem_set hG with hmem | rfl
  · exact h G hmem
  · rfl

theorem eqLens_ite (c : Prop) [Decidable c] (s1 s2 : ScanState)
    (h1 : EqLens s1.eqGroups) (h2 : EqLens s2.eqGroups) :
    EqLens (if c then s1 else s2).eqGroups := by
  split
  · exact h1
  · exact h2

theorem eqLens_scanCell (g : Grid) (category : Nat) (st : ScanState)
    (x y : Int) (h : EqLens st.eqGroups) :
    EqLens (scanCell g category st x y).eqGroups := by
  have hext : EqLens (st.eqGroups ++ [⟨[], []⟩]) := by
    intro G hG
    rcases List.mem_append.1 hG with hmem | hmem
    · exact h G hmem
    · simp at hmem; subst hmem; rfl
  unfold scanCell
  dsimp only
  split
  · exact h
  · split
    · exact h
    · split
      · exact eqLens_pushEqPair _ _ _ _ hext
      · split
        · exact eqLens_pushEqPair _ _ _ _ h
        · split
          · exact eqLens_pushEqPair _ _ _ _ h
          · refine eqLens_ite _ _ _ ?_ ?_
            · intro G hG
              rcases List.mem_or_eq_of_mem_set hG with hmem | rfl
              · rcases mem_modify _ _ _ _ hmem with hmem2 | ⟨y2, hy2, hGy⟩
                · exact eqLens_pushEqPair _ _ _ _ h G hmem2
                · subst hGy
                  simp only [List.length_append]
                  rw [eqLens_pushEqPair _ _ _ _ h y2 hy2,
                    eqLens_getD _ (eqLens_pushEqPair _ _ _ _ h) _]
              · rfl
            · exact eqLens_pushEqPair _ _ _ _ h

set_option maxHeartbeats 1000000 in
/-- All groups that the grouping pass returns have payload lists of equal
length. -/
theorem eqLens_groupParticles (g : Grid) (category : Nat) :
    EqLens (groupParticles g category) := by
  intro G hG
  unfold groupParticles at hG
  simp only [List.mem_filter] at hG
  have hfold : EqLens (((scanCellsList g.width g.height).foldl
      (fun (st : ScanState) (xy : Int × Int) => scanCell g category st xy.1 xy.2)
      ⟨[], [], fun _ => none⟩).eqGroups) := by
    refine foldl_inv (fun (st : ScanState) (xy : Int × Int) => scanCell g category st xy.1 xy.2)
      (fun st => EqLens st.eqGroups)
      (fun st xy hst => eqLens_scanCell g category st xy.1 xy.2 hst) _ _ ?_
    intro G hG
    simp at hG
  exact hfold G hG.1

/-- On a group list whose payload lists are pairwise equal in length,
the equalisation step never dereferences past the end of the empty list:
the result is some. -/
theorem simEq_isSome (g2 : Grid) (groups : List EqGroup) (proc : List Int)
    (h : EqLens groups) : (simulateEqualisation g2 groups proc).isSome = true := by
  unfold simulateEqualisation
  obtain ⟨r, hr, _⟩ := foldlM_option_total eqGroupStep (fun _ => True) groups
    (by
      intro acc group hgroup _
      unfold eqGroupStep
      dsimp only
      refine foldlM_option_total _ (fun _ => True) _ ?_ acc trivial
      intro acc2 i hi _
      have hiL : i < (stableSortBy (fun a b => decide (b.position.y ≤ a.position.y))
          group.liquidParticle).length := List.mem_range.1 hi
      have hiE : i < (stableSortBy (fun a b => decide (a.position.y ≤ b.position.y))
          group.emptyParticle).length := by
        rw [length_stableSortBy, ← h group hgroup, ← length_stableSortBy
          (fun a b => decide (b.position.y ≤ a.position.y))]
        exact hiL
      unfold eqInnerStep
      rw [List.getElem?_eq_getElem hiL, List.getElem?_eq_getElem hiE]
      dsimp only
      split
      · exact ⟨_, rfl, trivial⟩
      · exact ⟨_, rfl, trivial⟩)
    (g2, proc) trivial
  rw [hr]
  rfl

/-- The equalisation step never changes the grid: its only grid action
is the swapParticles stub. -/
theorem simEq_grid_unchanged (g : Grid) (groups : List EqGroup)
    (proc : List Int) (r : Grid × List Int)
    (h : simulateEqualisation g groups proc = some r) : r.1 = g := by
  unfold simulateEqualisation at h
  refine foldlM_option_inv eqGroupStep (fun acc => acc.1 = g) ?_ groups (g, proc) r h rfl
  intro b a r2 hstep hb
  unfold eqGroupStep at hstep
  dsimp only at hstep
  refine foldlM_option_inv _ (fun acc => acc.1 = g) ?_ _ b r2 hstep hb
  intro b2 i r3 hstep2 hb2
  unfold eqInnerStep at hstep2
  rcases h1 : (stableSortBy (fun a_1 b => decide (b.position.y ≤ a_1.position.y))
      a.liquidParticle)[i]? with _ | liquidPar
  · rw [h1] at hstep2; cases hstep2
  · rw [h1] at hstep2
    rcases h2 : (stableSortBy (fun a_1 b => decide (a_1.position.y ≤ b.position.y))
        a.emptyParticle)[i]? with _ | emptyPar
    · rw [h2] at hstep2; cases hstep2
    · rw [h2] at hstep2
      dsimp only at hstep2
      split at hstep2
      · cases hstep2
        exact hb2
      · cases hstep2
        exact hb2

/-- Dispatch and swap logs pass through the category handlers and the
final record update of the step unchanged except for their own appends. -/
theorem handler_logs (σ : Rng) (st : StepState) (p : Particle) :
    (handleLiquids σ st p).dispatchLog = st.dispatchLog ∧
    (handleGases σ st p).dispatchLog = st.dispatchLog ∧
    (handleSands σ st p).dispatchLog = st.dispatchLog := by
  refine ⟨?_, ?_, ?_⟩
  · unfold handleLiquids; dsimp only; split <;> rfl
  · unfold handleGases; dsimp only; split <;> rfl
  · unfold handleSands; dsimp only; split <;> rfl

theorem mem_addProc_self (s : List Int) (i : Int) : i ∈ addProc s i := by
  unfold addProc
  split
  · next hsplit => simpa using hsplit
  · exact List.mem_append.2 (Or.inr (List.mem_singleton.2 rfl))

theorem mem_addProc_of_mem (s : List Int) (i j : Int) (h : j ∈ s) : j ∈ addProc s i := by
  unfold addProc
  split
  · exact h
  · exact List.mem_append.2 (Or.inl h)

/-- Combined ghost invariant of the dispatch loop: every dispatched
particle's index was absent from the processed set at dispatch time, and
both endpoints of every logged swap are in the processed set. -/
def StepInv (st : StepState) : Prop :=
  (∀ d ∈ st.dispatchLog, d.2.contains d.1 = false) ∧
  (∀ e ∈ st.swapLog, e.1 ∈ st.processed ∧ e.2 ∈ st.processed)

theorem stepInv_handleLiquids (σ : Rng) (st : StepState) (p : Particle)
    (h : StepInv st) : StepInv (handleLiquids σ st p) := by
  unfold handleLiquids
  dsimp only
  split
  · refine ⟨h.1, ?_⟩
    intro e he
    rcases List.mem_append.1 he with hmem | hmem
    · obtain ⟨h1, h2⟩ := h.2 e hmem
      exact ⟨mem_addProc_of_mem _ _ _ (mem_addProc_of_mem _ _ _ h1),
             mem_addProc_of_mem _ _ _ (mem_addProc_of_mem _ _ _ h2)⟩
    · rw [List.mem_singleton.1 hmem]
      exact ⟨mem_addProc_of_mem _ _ _ (mem_addProc_self _ _), mem_addProc_self _ _⟩
  · exact ⟨h.1, h.2⟩

theorem stepInv_handleGases (σ : Rng) (st : StepState) (p : Particle)
    (h : StepInv st) : StepInv (handleGases σ st p) := by
  unfold handleGases
  dsimp only
  split
  · refine ⟨h.1, ?_⟩
    intro e he
    rcases List.mem_append.1 he with hmem | hmem
    · obtain ⟨h1, h2⟩ := h.2 e hmem
      exact ⟨mem_addProc_of_mem _ _ _ (mem_addProc_of_mem _ _ _ h1),
             mem_addProc_of_mem _ _ _ (mem_addProc_of_mem _ _ _ h2)⟩
    · rw [List.mem_singleton.1 hmem]
      exact ⟨mem_addProc_of_mem _ _ _ (mem_addProc_self _ _), mem_addProc_self _ _⟩
  · exact ⟨h.1, h.2⟩

theorem stepInv_handleSands (σ : Rng) (st : StepState) (p : Particle)
    (h : StepInv st) : StepInv (handleSands σ st p) := by
  unfold handleSands
  dsimp only
  split
  · refine ⟨h.1, ?_⟩
    intro e he
    rcases List.mem_append.1 he with hmem | hmem
    · obtain ⟨h1, h2⟩ := h.2 e hmem
      exact ⟨mem_addProc_of_mem _ _ _ (mem_addProc_of_mem _ _ _ h1),
             mem_addProc_of_mem _ _ _ (mem_addProc_of_mem _ _ _ h2)⟩
    · rw [List.mem_singleton.1 hmem]
      exact ⟨mem_addProc_of_mem _ _ _ (mem_addProc_self _ _), mem_addProc_self _ _⟩
  · exact ⟨h.1, h.2⟩

theorem stepInv_dispatch (σ : Rng) (st : StepState) (p : Particle)
    (h : StepInv st) : StepInv (dispatchParticle σ st p) := by
  unfold dispatchParticle
  split
  · exact h
  · next hskip =>
    have hfalse : st.processed.contains p.index = false := by
      rcases hb : st.processed.contains p.index with _ | _
      · rfl
      · exact absurd hb hskip
    have hst1 : StepInv { st with
        dispatchLog := st.dispatchLog ++ [(p.index, st.processed)] } := by
      refine ⟨?_, h.2⟩
      intro d hd
      rcases List.mem_append.1 hd with hmem | hmem
      · exact h.1 d hmem
      · rw [List.mem_singleton.1 hmem]
        exact hfalse
    split
    · exact stepInv_handleLiquids _ _ _ hst1
    · split
      · exact stepInv_handleGases _ _ _ hst1
      · split
        · exact stepInv_handleSands _ _ _ hst1
        · exact hst1

/-- The equalisation step only ever adds indices to the processed set. -/
theorem simEq_processed_mono (g : Grid) (groups : List EqGroup)
    (proc : List Int) (r : Grid × List Int)
    (h : simulateEqualisation g groups proc = some r) :
    ∀ x ∈ proc, x ∈ r.2 := by
  unfold simulateEqualisation at h
  refine foldlM_option_inv eqGroupStep (fun acc => ∀ x ∈ proc, x ∈ acc.2) ?_
    groups (g, proc) r h (fun x hx => hx)
  intro b a r2 hstep hb
  unfold eqGroupStep at hstep
  dsimp only at hstep
  refine foldlM_option_inv _ (fun acc => ∀ x ∈ proc, x ∈ acc.2) ?_ _ b r2 hstep hb
  intro b2 i r3 hstep2 hb2
  unfold eqInnerStep at hstep2
  rcases h1 : (stableSortBy (fun a_1 b => decide (b.position.y ≤ a_1.position.y))
      a.liquidParticle)[i]? with _ | liquidPar
  · rw [h1] at hstep2; cases hstep2
  · rw [h1] at hstep2
    rcases h2 : (stableSortBy (fun a_1 b => decide (a_1.position.y ≤ b.position.y))
        a.emptyParticle)[i]? with _ | emptyPar
    · rw [h2] at hstep2; cases hstep2
    · rw [h2] at hstep2
      dsimp only at hstep2
      split at hstep2
      · cases hstep2
        intro x hx
        exact mem_addProc_of_mem _ _ _ (mem_addProc_of_mem _ _ _ (hb2 x hx))
      · cases hstep2
        exact hb2

/-- The ghost invariant holds of every successful physics step. -/
theorem stepPhysics_inv (g : Grid) (particlesToUpdate : List Particle)
    (σ : Rng) (k : Nat) (r : StepState)
    (hr : stepPhysics g particlesToUpdate σ k = some r) :
    (∀ d ∈ r.dispatchLog, d.2.contains d.1 = false) ∧
    (∀ e ∈ r.swapLog, e.1 ∈ r.processed ∧ e.2 ∈ r.processed) := by
  unfold stepPhysics at hr
  dsimp only at hr
  have hloop : StepInv ((stableSortBy (fun a b => decide (a.position.y ≤ b.position.y))
      (shuffleArray σ k particlesToUpdate).1).foldl (dispatchParticle σ)
      ⟨g, [], [], [], (shuffleArray σ k particlesToUpdate).2⟩) := by
    refine foldl_inv (dispatchParticle σ) StepInv
      (fun st p hst => stepInv_dispatch σ st p hst) _ _ ?_
    exact ⟨fun d hd => absurd hd (List.not_mem_nil d), fun e he => absurd he (List.not_mem_nil e)⟩
  split at hr
  · cases hr
  · next gp heq =>
    cases hr
    refine ⟨hloop.1, ?_⟩
    intro e he
    obtain ⟨h1, h2⟩ := hloop.2 e he
    have hmono := simEq_processed_mono _ _ _ _ heq
    exact ⟨hmono _ h1, hmono _ h2⟩

/-! Claim theorems. -/

/-- Claim C10: every group returned by groupParticles has liquidParticle
and emptyParticle lists of equal length (pairs are only ever pushed
together and merged wholesale), so the equalisation loop, which walks the
liquid indices and dereferences the same empty index without a bounds
check, never reads past the end of either list: on any group list
produced by the grouping pass the equalisation step returns some (the
none result models exactly the out-of-bounds dereference). -/
theorem c10_group_lengths_safe :
    (∀ (g : Grid) (category : Nat),
      ((groupParticles g category).all fun G =>
        G.liquidParticle.length == G.emptyParticle.length) = true) ∧
    ∀ (gScan gRun : Grid) (category : Nat) (processed : List Int),
      (simulateEqualisation gRun (groupParticles gScan category) processed).isSome = true := by
  constructor
  · intro g category
    rw [List.all_eq_true]
    intro G hG
    simpa using eqLens_groupParticles g category G hG
  · intro gScan gRun category processed
    exact simEq_isSome gRun _ processed (eqLens_groupParticles gScan category)

set_option maxRecDepth 1000000 in
/-- Claim C2 (code bug): the equalisation step never swaps anything.
Engine.simulateEqualisation calls Grid.swapParticles, but that function
is a stub marked DONOT CALL (WIP) in the source whose body just returns
null; the grid is left untouched on every run (first conjunct).  On the
staircase fixture the swap branch is genuinely taken: the group survives
the threshold, the highest liquid (0,3) (flat index 93) lies strictly
above the lowest collected empty (1,2) (flat index 63), so the indices
are added to the processed set - yet no particles exchange slots, contra
the claim and the spec. -/
theorem c2_equalisation_swap_is_noop :
    (∀ (g : Grid) (groups : List EqGroup) (processed : List Int),
      ((simulateEqualisation g groups processed).map fun r => r.1).getD g = g) ∧
    (simulateEqualisation gridStair (groupParticles gridStair 2) []).map
      (fun r => r.2) = some [93, 63] ∧
    (mkWater 0 3 31).index = 93 ∧ (mkEmpty 1 2 31).index = 63 ∧
    (mkEmpty 1 2 31).position.y < (mkWater 0 3 31).position.y := by
  constructor
  · intro g groups processed
    cases h : simulateEqualisation g groups processed with
    | none => rfl
    | some r => simpa using simEq_grid_unchanged g groups processed r h
  · with_unfolding_all decide

set_option maxRecDepth 1000000 in
/-- Claim C3 counterexample: the 11 by 3 water block (33 connected liquid
cells, sitting under empties) is NOT returned by the grouping pass, so
equalisation does not run on it.  Only cells whose direct up neighbor is
the EMPTY element are collected into a group's liquidParticle list; the
block exposes exactly its 11-cell top row, and 11 is not greater than
the 30 threshold. -/
theorem c3_counterexample :
    groupParticles gridBlock33 2 = [] ∧
    (gridBlock33.data.filter fun p => p.id == 10).length = 33 ∧
    (gridBlock33.data.filter fun p => p.id == 10 &&
      ((getParticleAt gridBlock33 p.position.x (p.position.y + 1)).any
        fun u => u.id == 0)).length = 11 := by
  with_unfolding_all decide

set_option maxRecDepth 1000000 in
/-- Claim C3 as amended: the grouping pass keeps exactly the groups whose
collected liquid list - the liquid cells whose direct up neighbor is
EMPTY - has more than 30 entries.  Every returned group satisfies the
threshold; a 31-wide one-row puddle under empties collects 31 cells and
is considered; the 10 by 3 block (like the 11 by 3 one) is skipped. -/
theorem c3_amended_threshold :
    (∀ (g : Grid) (category : Nat),
      ((groupParticles g category).all fun G =>
        decide (30 < G.liquidParticle.length)) = true) ∧
    (groupParticles gridRow31 2).length = 1 ∧
    ((groupParticles gridRow31 2).getD 0 ⟨[], []⟩).liquidParticle.length = 31 ∧
    groupParticles gridBlock30 2 = [] := by
  constructor
  · intro g category
    rw [List.all_eq_true]
    intro G hG
    unfold groupParticles at hG
    simp only [List.mem_filter] at hG
    exact hG.2
  · with_unfolding_all decide

set_option maxRecDepth 1000000 in
/-- Claim C4 counterexample: a particle can participate in two swaps in
one step.  On the 2 by 3 fixture with the zero random stream, the water
at (0,1) (slot 2) first swaps with the EMPTY particle below it at (0,0)
(slot 0): the swap log records (0, 2), i.e. the empty particle now sits
at slot 2 and index 2 is added to the processed set.  The later water at
(1,2) (slot 5) then picks that very slot 2 as its diagonal target - the
log records (2, 5), whose mover-new-index 2 equals the previous entry's
target-new-index - so the already-processed empty particle is swapped a
second time: tryMoveParticle never consults the processed set for
targets.  The final grid (ids [10, 0, 10, 11, 0, 0]) shows water on
slot 2, where the claim would require the once-swapped empty particle to
remain. -/
theorem c4_counterexample :
    (stepPhysics gridC4 [mkWater 0 1 2, mkWater 1 2 2] zeroRng 0).map
        (fun st => (st.swapLog, st.processed, st.grid.data.map fun p => p.id)) =
      some ([(0, 2), (2, 5)], [0, 2, 5], [10, 0, 10, 11, 0, 0]) := by
  with_unfolding_all decide

/-- Claim C4 as amended: within one physics step a particle whose current
index is in the processed set is never dispatched again as a mover (every
dispatch-log entry records an index absent from the processed set at that
moment), and both endpoints' new indices of every tryMoveParticle swap
are added to the processed set; a swapped particle may however still be
chosen as the swap target of a later mover in the same step. -/
theorem c4_processed_skip :
    ∀ (g : Grid) (particlesToUpdate : List Particle) (σ : Rng) (k : Nat),
      ((stepPhysics g particlesToUpdate σ k).map fun st =>
        (st.dispatchLog.all fun d => !(d.2.contains d.1)) &&
        (st.swapLog.all fun e => st.processed.contains e.1 &&
          st.processed.contains e.2)).getD true = true := by
  intro g particlesToUpdate σ k
  cases hr : stepPhysics g particlesToUpdate σ k with
  | none => rfl
  | some r =>
    obtain ⟨h1, h2⟩ := stepPhysics_inv g particlesToUpdate σ k r hr
    simp only [Option.map_some', Option.getD_some, Bool.and_eq_true, List.all_eq_true]
    constructor
    · intro d hd
      rw [h1 d hd]
      rfl
    · intro e he
      obtain ⟨ha, hb⟩ := h2 e he
      constructor
      · simpa using ha
      · simpa using hb

set_option maxRecDepth 1000000 in
/-- Claim C9 (code bug): at radius 0 with the in-bounds cursor (1,1) on a
5 by 4 grid the brush outline generator emits eight identical pixels, not
one, and their framebuffer index is (H - cy) * W + cx = 16, one row above
the compositor convention (H - 1 - cy) * W + cx = 11 that the claim and
the rest of the renderer use; no emitted pixel has the claimed index. -/
theorem c9_brush_outline_off_by_one :
    getBrushOutline 1 1 0 5 4 = List.replicate 8 ⟨16, brushOutlineColor⟩ ∧
    ((4 - 1 - 1) * 5 + 1 : Int) = 11 ∧
    ∀ px ∈ getBrushOutline 1 1 0 5 4, px.index ≠ 11 := by
  with_unfolding_all decide

/-! Bounds for the repose counterexample at 40 degrees. -/

theorem tan40_pos : 0 < Real.tan (40 * Real.pi / 180) := by
  apply Real.tan_pos_of_pos_of_lt_pi_div_two
  · positivity
  · nlinarith [Real.pi_pos]

theorem tan40_lt_one : Real.tan (40 * Real.pi / 180) < 1 := by
  have h := Real.tan_lt_tan_of_nonneg_of_lt_pi_div_two
    (x := 40 * Real.pi / 180) (y := Real.pi / 4)
    (by positivity) (by nlinarith [Real.pi_pos]) (by nlinarith [Real.pi_pos])
  rwa [Real.tan_pi_div_four] at h

theorem lt_tan40 : 40 * Real.pi / 180 < Real.tan (40 * Real.pi / 180) := by
  apply Real.lt_tan
  · positivity
  · nlinarith [Real.pi_pos]

theorem cot40_gt_one : 1 < 1 / Real.tan (40 * Real.pi / 180) := by
  rw [lt_div_iff₀ tan40_pos]
  linarith [tan40_lt_one]

theorem cot40_lt_three_halves : 1 / Real.tan (40 * Real.pi / 180) < 3 / 2 := by
  have h1 : 1 / Real.tan (40 * Real.pi / 180) < 1 / (40 * Real.pi / 180) :=
    one_div_lt_one_div_of_lt (by positivity) lt_tan40
  have h2 : 1 / (40 * Real.pi / 180) < 3 / 2 := by
    rw [div_lt_div_iff₀ (by positivity) (by norm_num)]
    nlinarith [Real.pi_gt_three]
  linarith

theorem jsRoundR_cot40 : jsRoundR (1 / Real.tan (40 * Real.pi / 180)) = 1 := by
  unfold jsRoundR
  rw [Int.floor_eq_iff]
  constructor
  · push_cast
    linarith [cot40_gt_one]
  · push_cast
    linarith [cot40_lt_three_halves]

theorem ceil_cot40 : ⌈1 / Real.tan (40 * Real.pi / 180)⌉ = (2 : Int) := by
  rw [Int.ceil_eq_iff]
  constructor
  · push_cast
    linarith [cot40_gt_one]
  · push_cast
    linarith [cot40_lt_three_halves]

theorem clamp40 : max (10 : ℝ) (min 40 80) = 40 := by
  norm_num

/-- Claim C6 counterexample: at repose angle 40 degrees the code's third
tier uses the JS-rounded cotangent, 1 (cot 40 is about 1.19), while the
spec's formula takes the ceiling, 2, so the direction groups differ. -/
theorem c6_counterexample : calculateRepose 40 ≠ reposeSpecCeil 40 := by
  unfold calculateRepose reposeSpecCeil
  dsimp only
  rw [clamp40]
  rw [if_pos (by norm_num : (40 : ℝ) < 50), if_pos (by norm_num : (40 : ℝ) < 50)]
  intro heq
  simp only [List.cons_append, List.nil_append, List.cons.injEq, Offset.mk.injEq,
    and_true, true_and] at heq
  rw [jsRoundR_cot40, ceil_cot40] at heq
  omega

/-- Claim C6 as amended: for every repose angle (clamped to [10, 80]),
the precomputed direction groups equal the spec's formula with the
ceiling replaced by JS rounding (round half up) of the cotangent
respectively tangent. -/
theorem c6_repose_round_formula :
    ∀ angleDeg : ℝ, calculateRepose angleDeg = reposeSpecRound angleDeg := by
  intro a
  unfold calculateRepose reposeSpecRound
  dsimp only
  by_cases h : max (10 : ℝ) (min a 80) < 50
  · rw [if_pos h, if_pos h]
    rfl
  · rw [if_neg h, if_neg h]
    rfl

/-! Loader test inputs and lookup lemmas. -/

/-- A block with a reserved id (5): the loader drops it silently. -/
def fileInvalidId : String :=
  "[5]\nname: ghost\ncategory: 1\nbase_color: #FFF\nvariant_color: #FFF\nis_movable: true\ndensity: 1"

/-- A complete block whose category (7) is not one of 1..5. -/
def fileBadCategory : String :=
  "[12]\nname: odd\ncategory: 7\nbase_color: #FFF\nvariant_color: #FFF\nis_movable: true\ndensity: 1"

/-- A good liquid block, a block missing density, and a duplicate id. -/
def fileMixed : String :=
  "# elements\n[10]\nname: water\ncategory: 2\nbase_color: #2244FF\nvariant_color: #2244FF\nis_movable: true\ndensity: 1\nmax_concentration: 100\n\n[11]\nname: broken\ncategory: 1\nbase_color: #555\nvariant_color: #555\nis_movable: false\n\n[10]\nname: dup\ncategory: 1\nbase_color: #000\nvariant_color: #000\nis_movable: true\ndensity: 2"

def waterName : String := "water"

def waterHexMixed : String := "#2244FF"

/-- The element the good block of fileMixed must load to. -/
def pdWater10 : ParticleData :=
  { id := 10, name := waterName, baseColor := waterHexMixed,
    variantColor := waterHexMixed, isMovable := true, density := 1,
    category := 2, maxConcentration := some 100 }

theorem find?_map_set (m : List (Nat × ParticleData)) (i : Nat) (v : ParticleData)
    (h : (m.any fun e => e.1 == i) = true) :
    (m.map fun e => if e.1 == i then (i, v) else e).find? (fun e => e.1 == i) =
      some (i, v) := by
  induction m with
  | nil => simp at h
  | cons a m ih =>
    simp only [List.any_cons, Bool.or_eq_true] at h
    by_cases ha : (a.1 == i) = true
    · simp only [List.map_cons, if_pos ha]
      rw [List.find?_cons_of_pos]
      simp
    · simp only [List.map_cons, if_neg ha]
      rw [List.find?_cons_of_neg _ (by simpa using ha)]
      refine ih ?_
      rcases h with h | h
      · exact absurd h ha
      · exact h

theorem find?_append_new (m : List (Nat × ParticleData)) (i : Nat) (v : ParticleData)
    (h : (m.any fun e => e.1 == i) = false) :
    (m ++ [(i, v)]).find? (fun e => e.1 == i) = some (i, v) := by
  induction m with
  | nil =>
    simp only [List.nil_append]
    rw [List.find?_cons_of_pos]
    simp
  | cons a m ih =>
    simp only [List.any_cons, Bool.or_eq_false_iff] at h
    simp only [List.cons_append]
    rw [List.find?_cons_of_neg _ (by simp [h.1])]
    refine ih ?_
    exact h.2

/-- Writing a key into the element map makes it the lookup result. -/
theorem lookup_mapSetData_self (m : List (Nat × ParticleData)) (i : Nat)
    (v : ParticleData) : lookupElement (mapSetData m i v) i = some v := by
  unfold mapSetData lookupElement
  split
  · next hany =>
    rw [find?_map_set m i v hany]
    rfl
  · next hany =>
    rw [find?_append_new m i v (Bool.not_eq_true _ ▸ eq_false_of_ne_true hany)]
    rfl

set_option maxRecDepth 1000000 in
/-- Claim C7 counterexample: a block with an invalid (reserved) id is
discarded without any warning, and a complete block whose category is
not one of 1..5 is discarded as well - the claim says invalid-id blocks
warn and that all blocks other than the three bad kinds are kept. -/
theorem c7_counterexample :
    (loadParticleData fileInvalidId).2 = [] ∧
    lookupElement (loadParticleData fileInvalidId).1 5 = none ∧
    lookupElement (loadParticleData fileBadCategory).1 12 = none ∧
    (loadParticleData fileBadCategory).2 = [] := by
  with_unfolding_all decide

set_option maxRecDepth 1000000 in
/-- Claim C7 as amended: the loader recovers from bad blocks without
failing the whole load - a block with an invalid id (no digits or below
10) is discarded silently; a duplicate id or a block missing a required
field is discarded with a warning; a complete block whose category is
outside 1..5 is discarded silently; all other blocks are kept; and the
hardcoded EMPTY element at id 0 is present in the returned registry for
every input text. -/
theorem c7_loader_recovery :
    (∀ text : String, lookupElement (loadParticleData text).1 0 = some emptyElementData) ∧
    lookupElement (loadParticleData fileMixed).1 10 = some pdWater10 ∧
    lookupElement (loadParticleData fileMixed).1 11 = none ∧
    (loadParticleData fileMixed).2 =
      [LoadWarning.duplicateId 10, LoadWarning.corruptedBlock 11] := by
  constructor
  · intro text
    unfold loadParticleData
    dsimp only
    exact lookup_mapSetData_self _ _ _
  · with_unfolding_all decide

/-- Boolean form of the swap condition at a candidate offset: the target
cell holds a movable particle of strictly smaller density than p. -/
def swapOkB (g : Grid) (p : Particle) (dx dy : Int) : Bool :=
  (getParticleAt g (p.position.x + dx) (p.position.y + dy)).any fun t =>
    t.isMovable && decide (t.density < p.density)

theorem markDirty_fields (g : Grid) (p : Particle) (b : Bool) :
    (markDirty g p b).data = g.data ∧ (markDirty g p b).width = g.width ∧
    (markDirty g p b).height = g.height ∧ (markDirty g p b).blueprint = g.blueprint := by
  unfold markDirty
  dsimp only
  split <;> exact ⟨rfl, rfl, rfl, rfl⟩

theorem tryCandidates_none_grid (g : Grid) (p : Particle) (bump m mn : Bool)
    (σ : Rng) : ∀ (cands : List Offset) (k : Nat),
    (tryCandidates g p cands bump m mn σ k).result = none →
    (tryCandidates g p cands bump m mn σ k).grid = g := by
  intro cands
  induction cands with
  | nil => intro k _; rfl
  | cons d rest ih =>
    intro k hr
    unfold tryCandidates at hr ⊢
    dsimp only at hr ⊢
    cases htgt : getParticleAt g
        (p.position.x + if bump ∧ (1 : Rat)/2 < σ k then d.dx * -1 else d.dx)
        (p.position.y + d.dy) with
    | none =>
      simp only [htgt] at hr ⊢
      exact ih _ hr
    | some target =>
      simp only [htgt] at hr ⊢
      by_cases hcond : (target.isMovable && decide (target.density < p.density)) = true
      · rw [if_pos hcond] at hr
        simp at hr
      · rw [if_neg hcond] at hr ⊢
        exact ih _ hr

theorem tryCandidates_allfail (g : Grid) (p : Particle) (bump m mn : Bool)
    (σ : Rng) : ∀ (cands : List Offset) (k : Nat),
    (∀ d ∈ cands, swapOkB g p d.dx d.dy = false ∧ swapOkB g p (-d.dx) d.dy = false) →
    (tryCandidates g p cands bump m mn σ k).result = none := by
  intro cands
  induction cands with
  | nil => intro k _; rfl
  | cons d rest ih =>
    intro k hfail
    obtain ⟨h1, h2⟩ := hfail d (List.mem_cons_self d rest)
    have htail : ∀ e ∈ rest, swapOkB g p e.dx e.dy = false ∧ swapOkB g p (-e.dx) e.dy = false :=
      fun e he => hfail e (List.mem_cons_of_mem d he)
    have hfailx : swapOkB g p
        (if bump ∧ (1 : Rat)/2 < σ k then d.dx * -1 else d.dx) d.dy = false := by
      split
      · rw [mul_neg_one]; exact h2
      · exact h1
    unfold tryCandidates
    dsimp only
    cases htgt : getParticleAt g
        (p.position.x + if bump ∧ (1 : Rat)/2 < σ k then d.dx * -1 else d.dx)
        (p.position.y + d.dy) with
    | none =>
      simp only [htgt]
      exact ih _ htail
    | some target =>
      simp only [htgt]
      have hcond : (target.isMovable && decide (target.density < p.density)) = false := by
        unfold swapOkB at hfailx
        rw [htgt] at hfailx
        simpa using hfailx
      rw [if_neg (by rw [hcond]; exact Bool.false_ne_true)]
      exact ih _ htail

theorem tryCandidates_some (g : Grid) (p : Particle) (bump m mn : Bool)
    (σ : Rng) : ∀ (cands : List Offset) (k : Nat) (t q : Particle),
    (tryCandidates g p cands bump m mn σ k).result = some (t, q) →
    ∃ d ∈ cands, ∃ dx, (dx = d.dx ∨ dx = -d.dx) ∧
      ∃ t0, getParticleAt g (p.position.x + dx) (p.position.y + d.dy) = some t0 ∧
        t0.isMovable = true ∧ t0.density < p.density ∧
        t = { t0 with position := p.position, index := p.index } ∧
        q = { p with position := t0.position, index := t0.index } ∧
        (tryCandidates g p cands bump m mn σ k).grid.data =
          (g.data.set t0.index.toNat q).set p.index.toNat t ∧
        (tryCandidates g p cands bump m mn σ k).grid.width = g.width ∧
        (tryCandidates g p cands bump m mn σ k).grid.height = g.height ∧
        (tryCandidates g p cands bump m mn σ k).grid.blueprint = g.blueprint := by
  intro cands
  induction cands with
  | nil => intro k t q hr; cases hr
  | cons d rest ih =>
    intro k t q hr
    unfold tryCandidates at hr ⊢
    dsimp only at hr ⊢
    cases htgt : getParticleAt g
        (p.position.x + if bump ∧ (1 : Rat)/2 < σ k then d.dx * -1 else d.dx)
        (p.position.y + d.dy) with
    | none =>
      simp only [htgt] at hr ⊢
      obtain ⟨e, he, hrest⟩ := ih _ t q hr
      exact ⟨e, List.mem_cons_of_mem d he, hrest⟩
    | some target =>
      simp only [htgt] at hr ⊢
      by_cases hcond : (target.isMovable && decide (target.density < p.density)) = true
      · rw [if_pos hcond] at hr ⊢
        dsimp only at hr
        obtain ⟨hmov, hdens⟩ := Bool.and_eq_true_iff.1 hcond
        injection hr with hpair
        have ht : t = { target with position := p.position, index := p.index } :=
          (congrArg Prod.fst hpair).symm
        have hq : q = { p with position := target.position, index := target.index } :=
          (congrArg Prod.snd hpair).symm
        refine ⟨d, List.mem_cons_self d rest,
          (if bump ∧ (1 : Rat)/2 < σ k then d.dx * -1 else d.dx), ?_, target, htgt,
          hmov, of_decide_eq_true hdens, ht, hq, ?_, ?_, ?_, ?_⟩
        · split
          · exact Or.inr (mul_neg_one d.dx)
          · exact Or.inl rfl
        · dsimp only
          split
          · rw [(markDirty_fields _ _ _).1, (markDirty_fields _ _ _).1]
            rw [ht, hq]
          · rw [ht, hq]
        · dsimp only
          split
          · rw [(markDirty_fields _ _ _).2.1, (markDirty_fields _ _ _).2.1]
          · rfl
        · dsimp only
          split
          · rw [(markDirty_fields _ _ _).2.2.1, (markDirty_fields _ _ _).2.2.1]
          · rfl
        · dsimp only
          split
          · rw [(markDirty_fields _ _ _).2.2.2, (markDirty_fields _ _ _).2.2.2]
          · rfl
      · rw [if_neg hcond] at hr ⊢
        obtain ⟨e, he, hrest⟩ := ih _ t q hr
        exact ⟨e, List.mem_cons_of_mem d he, hrest⟩

theorem tryMove_none_grid (p : Particle) (bump m mn : Bool)
    (σ : Rng) : ∀ (groups : List (List Offset)) (k : Nat) (gStart : Grid),
    (tryMoveParticle gStart p groups bump m mn σ k).result = none →
    (tryMoveParticle gStart p groups bump m mn σ k).grid = gStart := by
  intro groups
  induction groups with
  | nil => intro k gStart _; rfl
  | cons tier rest ih =>
    intro k gStart hr
    unfold tryMoveParticle at hr ⊢
    dsimp only at hr ⊢
    cases hres : (tryCandidates gStart p (shuffleArray σ k tier).1 bump m mn σ
        (shuffleArray σ k tier).2).result with
    | some v =>
      simp only [hres] at hr
      cases hr
    | none =>
      simp only [hres] at hr ⊢
      have hg := tryCandidates_none_grid gStart p bump m mn σ _ _ hres
      rw [hg] at hr ⊢
      exact ih _ _ hr

theorem tryMove_allfail (g : Grid) (p : Particle) (bump m mn : Bool)
    (σ : Rng) : ∀ (groups : List (List Offset)) (k : Nat),
    (∀ tier ∈ groups, ∀ d ∈ tier,
      swapOkB g p d.dx d.dy = false ∧ swapOkB g p (-d.dx) d.dy = false) →
    (tryMoveParticle g p groups bump m mn σ k).result = none ∧
    (tryMoveParticle g p groups bump m mn σ k).grid = g := by
  intro groups
  induction groups with
  | nil => intro k _; exact ⟨rfl, rfl⟩
  | cons tier rest ih =>
    intro k hfail
    unfold tryMoveParticle
    dsimp only
    have hcand : (tryCandidates g p (shuffleArray σ k tier).1 bump m mn σ
        (shuffleArray σ k tier).2).result = none := by
      refine tryCandidates_allfail g p bump m mn σ _ _ ?_
      intro d hd
      exact hfail tier (List.mem_cons_self tier rest) d (mem_shuffle σ k tier d hd)
    simp only [hcand]
    have hg := tryCandidates_none_grid g p bump m mn σ _ _ hcand
    rw [hg]
    exact ih _ (fun e he d hd => hfail e (List.mem_cons_of_mem tier he) d hd)

theorem tryMove_some (g : Grid) (p : Particle) (bump m mn : Bool)
    (σ : Rng) : ∀ (groups : List (List Offset)) (k : Nat) (t q : Particle),
    (tryMoveParticle g p groups bump m mn σ k).result = some (t, q) →
    ∃ tier ∈ groups, ∃ d ∈ tier, ∃ dx, (dx = d.dx ∨ dx = -d.dx) ∧
      ∃ t0, getParticleAt g (p.position.x + dx) (p.position.y + d.dy) = some t0 ∧
        t0.isMovable = true ∧ t0.density < p.density ∧
        t = { t0 with position := p.position, index := p.index } ∧
        q = { p with position := t0.position, index := t0.index } ∧
        (tryMoveParticle g p groups bump m mn σ k).grid.data =
          (g.data.set t0.index.toNat q).set p.index.toNat t ∧
        (tryMoveParticle g p groups bump m mn σ k).grid.width = g.width ∧
        (tryMoveParticle g p groups bump m mn σ k).grid.height = g.height ∧
        (tryMoveParticle g p groups bump m mn σ k).grid.blueprint = g.blueprint := by
  intro groups
  induction groups with
  | nil => intro k t q hr; cases hr
  | cons tier rest ih =>
    intro k t q hr
    unfold tryMoveParticle at hr ⊢
    dsimp only at hr ⊢
    cases hres : (tryCandidates g p (shuffleArray σ k tier).1 bump m mn σ
        (shuffleArray σ k tier).2).result with
    | some v =>
      simp only [hres] at hr ⊢
      rw [hr] at hres
      obtain ⟨d, hd, rest2⟩ := tryCandidates_some g p bump m mn σ _ _ t q hres
      exact ⟨tier, List.mem_cons_self tier rest, d, mem_shuffle σ k tier d hd, rest2⟩
    | none =>
      simp only [hres] at hr ⊢
      have hg := tryCandidates_none_grid g p bump m mn σ _ _ hres
      rw [hg] at hr ⊢
      obtain ⟨tier2, htier2, rest2⟩ := ih _ t q hr
      exact ⟨tier2, List.mem_cons_of_mem tier htier2, rest2⟩

/-- Claim C1: the density law of the movement primitive.  If the call
returns a target, then some candidate offset of some tier (its dx
possibly negated by the bump coin) resolved to a target particle that was
movable and strictly less dense than the mover at the moment of the
swap, the returned records carry the exchanged positions and indices,
and the resulting dense array is the original with exactly the two slots
exchanged.  If the call returns none the grid is unchanged, and if no
candidate offset (in either bump orientation) satisfies the movability
and density condition, the call does return none with the grid
unchanged. -/
theorem c1_tryMove_density_law (g : Grid) (p : Particle)
    (directionGroups : List (List Offset)) (bump mark markN : Bool)
    (σ : Rng) (k : Nat) :
    (∀ t q, (tryMoveParticle g p directionGroups bump mark markN σ k).result = some (t, q) →
      ∃ tier ∈ directionGroups, ∃ d ∈ tier, ∃ dx, (dx = d.dx ∨ dx = -d.dx) ∧
        ∃ t0, getParticleAt g (p.position.x + dx) (p.position.y + d.dy) = some t0 ∧
          t0.isMovable = true ∧ t0.density < p.density ∧
          t = { t0 with position := p.position, index := p.index } ∧
          q = { p with position := t0.position, index := t0.index } ∧
          (tryMoveParticle g p directionGroups bump mark markN σ k).grid.data =
            (g.data.set t0.index.toNat q).set p.index.toNat t) ∧
    ((tryMoveParticle g p directionGroups bump mark markN σ k).result = none →
      (tryMoveParticle g p directionGroups bump mark markN σ k).grid = g) ∧
    ((∀ tier ∈ directionGroups, ∀ d ∈ tier,
        swapOkB g p d.dx d.dy = false ∧ swapOkB g p (-d.dx) d.dy = false) →
      (tryMoveParticle g p directionGroups bump mark markN σ k).result = none ∧
      (tryMoveParticle g p directionGroups bump mark markN σ k).grid = g) := by
  refine ⟨?_, ?_, ?_⟩
  · intro t q hr
    obtain ⟨tier, htier, d, hd, dx, hdx, t0, h1, h2, h3, h4, h5, h6, _⟩ :=
      tryMove_some g p bump mark markN σ directionGroups k t q hr
    exact ⟨tier, htier, d, hd, dx, hdx, t0, h1, h2, h3, h4, h5, h6⟩
  · intro hr
    exact tryMove_none_grid p bump mark markN σ directionGroups k g hr
  · intro hfail
    exact tryMove_allfail g p bump mark markN σ directionGroups k hfail

set_option maxRecDepth 100000 in
/-- Witness for C1: water at (1,2) of the fixture grid sits on an
immovable stone, and straight-down is the only candidate, so the call
returns none and leaves the grid unchanged. -/
theorem c1_witness :
    (tryMoveParticle gridC4 (mkWater 1 2 2) [[⟨0, -1⟩]] false true true zeroRng 0).result
        = none ∧
    (tryMoveParticle gridC4 (mkWater 1 2 2) [[⟨0, -1⟩]] false true true zeroRng 0).grid
        = gridC4 :=
  (c1_tryMove_density_law gridC4 (mkWater 1 2 2) [[⟨0, -1⟩]] false true true
    zeroRng 0).2.2 (by with_unfolding_all decide)

/-! Coherence building blocks. -/

theorem coherentData_set (w ht : Int) (data : List Particle)
    (h : CoherentData w ht data) (i : Nat) (pNew : Particle)
    (hidx : pNew.index = (i : Int)) (hx : pNew.position.x = (i : Int) % w)
    (hy : pNew.position.y = (i : Int) / w) :
    CoherentData w ht (data.set i pNew) := by
  refine ⟨by rw [List.length_set]; exact h.1, ?_⟩
  intro j hj
  rw [List.length_set] at hj
  have hget : (data.set i pNew).get ⟨j, by rwa [List.length_set]⟩ =
      if i = j then pNew else data.get ⟨j, hj⟩ := by
    rw [List.get_eq_getElem, List.getElem_set]
    split
    · rfl
    · rw [List.get_eq_getElem]
  rw [hget]
  split
  · next hij => subst hij; exact ⟨hidx, hx, hy⟩
  · exact h.2 j hj

/-- What coherence says about a successful in-bounds read: the particle
carries the flat index of the probed cell and the probed position. -/
theorem coherent_getParticleAt (g : Grid) (h : Coherent g) (x y : Int)
    (t : Particle) (ht : getParticleAt g x y = some t) :
    0 ≤ x ∧ x < g.width ∧ 0 ≤ y ∧ y < g.height ∧
    0 ≤ y * g.width + x ∧ (y * g.width + x).toNat < g.data.length ∧
    t.index = y * g.width + x ∧ t.position.x = x ∧ t.position.y = y := by
  unfold getParticleAt at ht
  split at ht
  · next hbound =>
    unfold isInBounds at hbound
    simp only [Bool.and_eq_true, decide_eq_true_eq] at hbound
    obtain ⟨⟨⟨hx0, hxw⟩, hy0⟩, hyh⟩ := hbound
    have hw0 : 0 < g.width := lt_of_le_of_lt hx0 hxw
    have hflat0 : 0 ≤ y * g.width + x := by positivity
    obtain ⟨hlt, hget⟩ := List.getElem?_eq_some_iff.1 ht
    have hcast : ((y * g.width + x).toNat : Int) = y * g.width + x :=
      Int.toNat_of_nonneg hflat0
    obtain ⟨hidx, hpx, hpy⟩ := h.2 (y * g.width + x).toNat hlt
    rw [List.get_eq_getElem] at hidx hpx hpy
    rw [hget] at hidx hpx hpy
    refine ⟨hx0, hxw, hy0, hyh, hflat0, hlt, by rw [hidx, hcast], ?_, ?_⟩
    · rw [hpx, hcast, add_comm (y * g.width) x, mul_comm y g.width,
        Int.add_mul_emod_self_left]
      exact Int.emod_eq_of_lt hx0 hxw
    · rw [hpy, hcast, add_comm (y * g.width) x, mul_comm y g.width,
        Int.add_mul_ediv_left x y (ne_of_gt hw0)]
      rw [Int.ediv_eq_zero_of_lt hx0 hxw]
      omega
  · cases ht

theorem buildParticle_fields (pd : ParticleData) (r : Rat) (p0 : Particle)
    (h : buildParticle pd r = some p0) :
    p0.id = pd.id ∧ p0.isMovable = pd.isMovable ∧ p0.density = pd.density := by
  unfold buildParticle at h
  dsimp only at h
  split_ifs at h <;> (cases h; exact ⟨rfl, rfl, rfl⟩)

theorem buildParticle_isSome (pd : ParticleData) (r : Rat)
    (hcat : pd.category ≤ 5) : (buildParticle pd r).isSome = true := by
  unfold buildParticle
  dsimp only
  have h6 : pd.category = 0 ∨ pd.category = 1 ∨ pd.category = 2 ∨ pd.category = 3 ∨
      pd.category = 4 ∨ pd.category = 5 := by omega
  rcases h6 with h | h | h | h | h | h <;> simp [h]

/-- Full characterization of createParticleAt: dimensions and blueprint
are untouched; out of bounds it returns the same grid and false; in
bounds it builds the element's particle, stamps position and index, and
writes exactly the probed slot. -/
theorem createParticleAt_effect (g : Grid) (x y : Int) (pid : Nat)
    (md mn : Bool) (σ : Rng) (k : Nat) (g2 : Grid) (b : Bool) (k2 : Nat)
    (h : createParticleAt g x y pid md mn σ k = some (g2, b, k2)) :
    g2.width = g.width ∧ g2.height = g.height ∧ g2.blueprint = g.blueprint ∧
    ((isInBounds g x y = false ∧ g2 = g ∧ b = false) ∨
     (isInBounds g x y = true ∧ b = true ∧
      ∃ pd p0, g.blueprint pid = some pd ∧ buildParticle pd (σ k) = some p0 ∧
        g2.data = g.data.set (y * g.width + x).toNat
          { p0 with position := ⟨x, y⟩, index := y * g.width + x })) := by
  unfold createParticleAt at h
  split at h
  · next hbound =>
    unfold createParticle at h
    cases hbp : g.blueprint pid with
    | none => rw [hbp] at h; cases h
    | some pd =>
      rw [hbp] at h
      dsimp only at h
      cases hbuild : buildParticle pd (σ k) with
      | none => rw [hbuild] at h; cases h
      | some p0 =>
        rw [hbuild] at h
        dsimp only at h
        cases h
        have hmd : ∀ gg : Grid, (if md then markDirty gg
            { p0 with position := ⟨x, y⟩, index := y * g.width + x } mn else gg).width = gg.width ∧
            (if md then markDirty gg
              { p0 with position := ⟨x, y⟩, index := y * g.width + x } mn else gg).height = gg.height ∧
            (if md then markDirty gg
              { p0 with position := ⟨x, y⟩, index := y * g.width + x } mn else gg).blueprint = gg.blueprint ∧
            (if md then markDirty gg
              { p0 with position := ⟨x, y⟩, index := y * g.width + x } mn else gg).data = gg.data := by
          intro gg
          split
          · obtain ⟨h1, h2, h3, h4⟩ := markDirty_fields gg _ mn
            exact ⟨h2, h3, h4, h1⟩
          · exact ⟨rfl, rfl, rfl, rfl⟩
        obtain ⟨h1, h2, h3, h4⟩ := hmd g
        refine ⟨h1, h2, h3, Or.inr ⟨hbound, rfl, pd, p0, rfl, hbuild, ?_⟩⟩
        rw [h4, h1]
  · next hbound =>
    cases h
    exact ⟨rfl, rfl, rfl, Or.inl ⟨by simpa using hbound, rfl, rfl⟩⟩

/-- createParticleAt preserves index coherence. -/
theorem coherent_createParticleAt (g : Grid) (x y : Int) (pid : Nat)
    (md mn : Bool) (σ : Rng) (k : Nat) (g2 : Grid) (b : Bool) (k2 : Nat)
    (hg : Coherent g) (h : createParticleAt g x y pid md mn σ k = some (g2, b, k2)) :
    Coherent g2 := by
  obtain ⟨hw, hh, _, hcase⟩ := createParticleAt_effect g x y pid md mn σ k g2 b k2 h
  rcases hcase with ⟨_, rfl, _⟩ | ⟨hbound, _, pd, p0, _, _, hdata⟩
  · exact hg
  · unfold Coherent
    rw [hw, hh, hdata]
    unfold isInBounds at hbound
    simp only [Bool.and_eq_true, decide_eq_true_eq] at hbound
    obtain ⟨⟨⟨hx0, hxw⟩, hy0⟩, hyh⟩ := hbound
    have hw0 : 0 < g.width := lt_of_le_of_lt hx0 hxw
    have hflat0 : 0 ≤ y * g.width + x := by positivity
    have hcast : ((y * g.width + x).toNat : Int) = y * g.width + x :=
      Int.toNat_of_nonneg hflat0
    refine coherentData_set g.width g.height g.data hg _ _ ?_ ?_ ?_
    · exact hcast.symm
    · show x = ((y * g.width + x).toNat : Int) % g.width
      rw [hcast, add_comm (y * g.width) x, mul_comm y g.width,
        Int.add_mul_emod_self_left]
      exact (Int.emod_eq_of_lt hx0 hxw).symm
    · show y = ((y * g.width + x).toNat : Int) / g.width
      rw [hcast, add_comm (y * g.width) x, mul_comm y g.width,
        Int.add_mul_ediv_left x y (ne_of_gt hw0)]
      rw [Int.ediv_eq_zero_of_lt hx0 hxw]
      omega

/-- The movement primitive preserves index coherence for any mover that
actually occupies its slot. -/
theorem coherent_tryMove (g : Grid) (p : Particle)
    (groups : List (List Offset)) (bump m mn : Bool) (σ : Rng) (k : Nat)
    (hg : Coherent g) (hp : g.data[p.index.toNat]? = some p) :
    Coherent (tryMoveParticle g p groups bump m mn σ k).grid := by
  cases hres : (tryMoveParticle g p groups bump m mn σ k).result with
  | none =>
    rw [tryMove_none_grid p bump m mn σ groups k g hres]
    exact hg
  | some v =>
    obtain ⟨tier, _, d, _, dx, _, t0, hget, _, hdens, ht, hq, hdata, hwidth, hheight, _⟩ :=
      tryMove_some g p bump m mn σ groups k v.1 v.2 (by rw [hres])
    obtain ⟨hx0, hxw, hy0, hyh, hflat0, hlt, htidx, htpx, htpy⟩ :=
      coherent_getParticleAt g hg _ _ t0 hget
    obtain ⟨hplt, hpget⟩ := List.getElem?_eq_some_iff.1 hp
    obtain ⟨hpidx, hppx, hppy⟩ := hg.2 p.index.toNat hplt
    rw [List.get_eq_getElem, hpget] at hpidx hppx hppy
    unfold Coherent
    rw [hwidth, hheight, hdata]
    have htcast : (t0.index.toNat : Int) = t0.index := by
      rw [htidx]
      exact Int.toNat_of_nonneg hflat0
    have hpcast : (p.index.toNat : Int) = p.index := hpidx.symm
    have hw0 : 0 < g.width := lt_of_le_of_lt hx0 hxw
    refine coherentData_set g.width g.height _ ?_ p.index.toNat v.1 ?_ ?_ ?_
    · refine coherentData_set g.width g.height g.data hg t0.index.toNat v.2 ?_ ?_ ?_
      · rw [hq]
        exact htcast.symm
      · rw [hq]
        show t0.position.x = _
        rw [htpx, htcast, htidx, add_comm (_ * g.width) _, mul_comm _ g.width,
          Int.add_mul_emod_self_left]
        exact (Int.emod_eq_of_lt hx0 hxw).symm
      · rw [hq]
        show t0.position.y = _
        rw [htpy, htcast, htidx, add_comm (_ * g.width) _, mul_comm _ g.width,
          Int.add_mul_ediv_left _ _ (ne_of_gt hw0)]
        rw [Int.ediv_eq_zero_of_lt hx0 hxw]
        omega
    · rw [ht]
      show p.index = _
      exact hpidx
    · rw [ht]
      show p.position.x = _
      exact hppx
    · rw [ht]
      show p.position.y = _
      exact hppy

/-! Remaining coherence machinery: grid population and circle fill. -/

theorem pointwise_append (width : Int) (data : List Particle) (p : Particle)
    (hprev : ∀ i (h : i < data.length),
      (data.get ⟨i, h⟩).index = (i : Int) ∧
      (data.get ⟨i, h⟩).position.x = (i : Int) % width ∧
      (data.get ⟨i, h⟩).position.y = (i : Int) / width)
    (hidx : p.index = (data.length : Int))
    (hpx : p.position.x = (data.length : Int) % width)
    (hpy : p.position.y = (data.length : Int) / width) :
    ∀ i (h : i < (data ++ [p]).length),
      ((data ++ [p]).get ⟨i, h⟩).index = (i : Int) ∧
      ((data ++ [p]).get ⟨i, h⟩).position.x = (i : Int) % width ∧
      ((data ++ [p]).get ⟨i, h⟩).position.y = (i : Int) / width := by
  intro i h
  have hlen : i < data.length + 1 := by simpa using h
  rcases Nat.lt_or_ge i data.length with hi | hi
  · have hget : (data ++ [p]).get ⟨i, h⟩ = data.get ⟨i, hi⟩ := by
      rw [List.get_eq_getElem, List.get_eq_getElem]
      exact List.getElem_append_left hi
    rw [hget]
    exact hprev i hi
  · have hieq : i = data.length := by omega
    subst hieq
    have hget : (data ++ [p]).get ⟨data.length, h⟩ = p := by
      rw [List.get_eq_getElem, List.getElem_append_right (le_refl data.length)]
      simp
    rw [hget]
    exact ⟨hidx, hpx, hpy⟩

theorem populateCells_spec (W : Nat) : ∀ H : Nat,
    ((List.range H).map fun (n : Nat) => (n : Int)).flatMap
      (fun yy => ((List.range W).map fun (n : Nat) => (n : Int)).map fun xx => (xx, yy)) =
    (List.range (H * W)).map
      fun n => (((n % W : Nat) : Int), ((n / W : Nat) : Int)) := by
  intro H
  induction H with
  | zero => simp
  | succ H ih =>
    rcases Nat.eq_zero_or_pos W with hW | hW
    · subst hW
      simp
    · rw [List.range_succ, List.map_append, List.flatMap_append, ih,
        Nat.succ_mul, List.range_add, List.map_append]
      congr 1
      simp only [List.map_cons, List.map_nil, List.flatMap_cons, List.flatMap_nil,
        List.append_nil, List.map_map]
      refine List.map_congr_left ?_
      intro x hx
      have hxW : x < W := List.mem_range.1 hx
      have h1 : (H * W + x) % W = x := by
        rw [Nat.mul_comm, Nat.mul_add_mod, Nat.mod_eq_of_lt hxW]
      have h2 : (H * W + x) / W = H := by
        rw [Nat.mul_comm, Nat.mul_add_div hW, Nat.div_eq_of_lt hxW, Nat.add_zero]
      simp [Function.comp, h1, h2]

theorem populateCells_eq (width height : Int) :
    populateCells width height =
    (List.range (height.toNat * width.toNat)).map
      fun n => (((n % width.toNat : Nat) : Int), ((n / width.toNat : Nat) : Int)) :=
  populateCells_spec width.toNat height.toNat

theorem populate_fold (width : Int) (pid : Nat) (σ : Rng) (hw : 0 ≤ width) :
    ∀ (m n : Nat) (gAcc : Grid) (k : Nat),
    gAcc.data.length = n →
    (∀ i (h : i < gAcc.data.length),
      (gAcc.data.get ⟨i, h⟩).index = (i : Int) ∧
      (gAcc.data.get ⟨i, h⟩).position.x = (i : Int) % width ∧
      (gAcc.data.get ⟨i, h⟩).position.y = (i : Int) / width) →
    ∀ gOut kOut,
    ((List.range' n m).map
        (fun j => (((j % width.toNat : Nat) : Int), ((j / width.toNat : Nat) : Int)))).foldlM
      (populateStep width pid σ) (gAcc, k) = some (gOut, kOut) →
    gOut.width = gAcc.width ∧ gOut.height = gAcc.height ∧
    gOut.blueprint = gAcc.blueprint ∧
    gOut.data.length = n + m ∧
    (∀ i (h : i < gOut.data.length),
      (gOut.data.get ⟨i, h⟩).index = (i : Int) ∧
      (gOut.data.get ⟨i, h⟩).position.x = (i : Int) % width ∧
      (gOut.data.get ⟨i, h⟩).position.y = (i : Int) / width) := by
  have hWcast : ((width.toNat : Nat) : Int) = width := Int.toNat_of_nonneg hw
  intro m
  induction m with
  | zero =>
    intro n gAcc k hlen hpt gOut kOut hfold
    rw [show List.range' n 0 = [] from rfl, List.map_nil, List.foldlM_nil] at hfold
    cases hfold
    exact ⟨rfl, rfl, rfl, by omega, hpt⟩
  | succ m ih =>
    intro n gAcc k hlen hpt gOut kOut hfold
    rw [List.range'_succ, List.map_cons, List.foldlM_cons] at hfold
    unfold populateStep at hfold
    dsimp only at hfold
    rcases hcp : createParticle gAcc pid σ k with ⟨op, k1⟩
    rw [hcp] at hfold
    cases op with
    | none => simp at hfold
    | some p0 =>
      dsimp only at hfold
      have hidx : ({ p0 with
          position := ⟨((n % width.toNat : Nat) : Int), ((n / width.toNat : Nat) : Int)⟩,
          index := ((n / width.toNat : Nat) : Int) * width + ((n % width.toNat : Nat) : Int) }
            : Particle).index = (gAcc.data.length : Int) := by
        show ((n / width.toNat : Nat) : Int) * width + ((n % width.toNat : Nat) : Int) = _
        rw [hlen, ← hWcast]
        exact_mod_cast Nat.div_add_mod' n width.toNat
      have hpx : ({ p0 with
          position := ⟨((n % width.toNat : Nat) : Int), ((n / width.toNat : Nat) : Int)⟩,
          index := ((n / width.toNat : Nat) : Int) * width + ((n % width.toNat : Nat) : Int) }
            : Particle).position.x = (gAcc.data.length : Int) % width := by
        show ((n % width.toNat : Nat) : Int) = _
        rw [hlen, ← hWcast]
        exact Int.natCast_mod n width.toNat
      have hpy : ({ p0 with
          position := ⟨((n % width.toNat : Nat) : Int), ((n / width.toNat : Nat) : Int)⟩,
          index := ((n / width.toNat : Nat) : Int) * width + ((n % width.toNat : Nat) : Int) }
            : Particle).position.y = (gAcc.data.length : Int) / width := by
        show ((n / width.toNat : Nat) : Int) = _
        rw [hlen, ← hWcast]
        exact Int.natCast_div n width.toNat
      obtain ⟨h1, h2, h3, h4, h5⟩ := ih (n + 1)
        { gAcc with
            data := gAcc.data ++ [{ p0 with
              position := ⟨((n % width.toNat : Nat) : Int), ((n / width.toNat : Nat) : Int)⟩,
              index := ((n / width.toNat : Nat) : Int) * width
                + ((n % width.toNat : Nat) : Int) }],
            dirtyParticles := gAcc.dirtyParticles ++ [{ p0 with
              position := ⟨((n % width.toNat : Nat) : Int), ((n / width.toNat : Nat) : Int)⟩,
              index := ((n / width.toNat : Nat) : Int) * width
                + ((n % width.toNat : Nat) : Int) }] }
        k1 (by simp [hlen]) (pointwise_append width gAcc.data _ hpt hidx hpx hpy)
        gOut kOut hfold
      exact ⟨h1, h2, h3, by omega, h5⟩

/-- The grid constructor's population pass yields a coherent dense
array: slot i holds the particle with index i and position
(i mod w, i div w). -/
theorem populateGrid_coherent (width height : Int) (bp : Nat → Option ParticleData)
    (pid : Nat) (σ : Rng) (k : Nat) (g : Grid) (k2 : Nat)
    (hw : 0 ≤ width) (hh : 0 ≤ height)
    (h : populateGrid width height bp pid σ k = some (g, k2)) :
    g.width = width ∧ g.height = height ∧ g.blueprint = bp ∧ Coherent g := by
  unfold populateGrid at h
  rw [populateCells_eq, List.range_eq_range'] at h
  obtain ⟨h1, h2, h3, h4, h5⟩ :=
    populate_fold width pid σ hw (height.toNat * width.toNat) 0
      ⟨width, height, [], [], bp⟩ k rfl (fun i hi => absurd hi (by simp)) g k2 h
  refine ⟨h1, h2, h3, ?_, ?_⟩
  · rw [h1, h2]
    have hcast : width * height = ((width.toNat * height.toNat : Nat) : Int) := by
      conv_lhs => rw [← Int.toNat_of_nonneg hw, ← Int.toNat_of_nonneg hh]
      push_cast
      ring
    rw [h4, hcast, Int.toNat_natCast, Nat.zero_add, Nat.mul_comm]
  · intro i hi
    rw [h1]
    exact h5 i hi

/-- fillCircleAt only ever changes the grid through createParticleAt, so
it preserves index coherence. -/
theorem coherent_fillCircleAt (g : Grid) (x y radius : Int) (pid : Nat)
    (σ : Rng) (k : Nat) (g2 : Grid) (k2 : Nat) (hg : Coherent g)
    (h : fillCircleAt g x y radius pid σ k = some (g2, k2)) : Coherent g2 := by
  unfold fillCircleAt at h
  refine foldlM_option_inv (fillCircleStep x y radius pid σ)
    (fun acc => Coherent acc.1) ?_ (fillCirclePairs radius) (g, k) (g2, k2) h hg
  intro b a r hr hb
  unfold fillCircleStep at hr
  dsimp only at hr
  split at hr
  · cases hr
    exact hb
  · split at hr
    · cases hcr : createParticleAt b.1 (x + a.1) (y + a.2) pid true true σ b.2 with
      | none =>
        rw [hcr] at hr
        dsimp only at hr
        split at hr
        · cases hr
        · cases hgp : getParticleAt b.1 (x + a.1) (y + a.2) with
          | none => rw [hgp] at hr; cases hr
          | some prev =>
            rw [hgp] at hr
            dsimp only at hr
            split at hr
            · cases hr
            · cases hr
              exact hb
      | some trip =>
        obtain ⟨gg, bb, kk⟩ := trip
        rw [hcr] at hr
        dsimp only at hr
        split at hr
        · cases hr
          exact coherent_createParticleAt b.1 (x + a.1) (y + a.2) pid true true σ
            b.2 gg bb kk hb hcr
        · cases hgp : getParticleAt b.1 (x + a.1) (y + a.2) with
          | none => rw [hgp] at hr; cases hr
          | some prev =>
            rw [hgp] at hr
            dsimp only at hr
            split at hr
            · cases hr
              exact coherent_createParticleAt b.1 (x + a.1) (y + a.2) pid true true σ
                b.2 gg bb kk hb hcr
            · cases hr
              exact hb
    · cases hr
      exact hb

/-- What slot-wise coherence means for a member particle: its index is
its row-major position, the slot at its index holds exactly it, and the
position is recovered from the index. -/
theorem coherent_mem (g : Grid) (hg : Coherent g) (p : Particle)
    (hp : p ∈ g.data) :
    p.index = p.position.y * g.width + p.position.x ∧
    g.data[p.index.toNat]? = some p ∧
    p.position.x = p.index % g.width ∧ p.position.y = p.index / g.width := by
  obtain ⟨⟨i, hi⟩, hgi⟩ := List.mem_iff_get.1 hp
  obtain ⟨hidx, hpx, hpy⟩ := hg.2 i hi
  rw [hgi] at hidx hpx hpy
  have hsum : (i : Int) = ((i : Int) / g.width) * g.width + (i : Int) % g.width := by
    have h := Int.ediv_add_emod (i : Int) g.width
    rw [mul_comm g.width ((i : Int) / g.width)] at h
    exact h.symm
  refine ⟨?_, ?_, ?_, ?_⟩
  · rw [hidx, hpx, hpy]
    exact hsum
  · rw [hidx, Int.toNat_natCast]
    rw [List.get_eq_getElem] at hgi
    exact List.getElem?_eq_some_iff.2 ⟨hi, hgi⟩
  · rw [hidx]
    exact hpx
  · rw [hidx]
    exact hpy

/-- Claim C5: index coherence — every slot i of the dense array holds
the particle whose index field is i and whose position is
(i mod W, i div W) — is established by the constructor's population pass
and preserved by createParticleAt, by tryMoveParticle's swap (for a
mover that occupies its slot, as every engine caller guarantees), and by
fillCircleAt; and for every member particle p of a coherent grid,
p.index equals p.position.y * W + p.position.x, the slot at p.index
holds exactly p, and the position is recovered from the index. -/
theorem c5_index_coherence :
    (∀ (width height : Int) (bp : Nat → Option ParticleData) (pid : Nat)
       (σ : Rng) (k : Nat) (g : Grid) (k2 : Nat), 0 ≤ width → 0 ≤ height →
      populateGrid width height bp pid σ k = some (g, k2) → Coherent g) ∧
    (∀ (g : Grid) (x y : Int) (pid : Nat) (md mn : Bool) (σ : Rng) (k : Nat)
       (g2 : Grid) (b : Bool) (k2 : Nat), Coherent g →
      createParticleAt g x y pid md mn σ k = some (g2, b, k2) → Coherent g2) ∧
    (∀ (g : Grid) (p : Particle) (groups : List (List Offset)) (bump m mn : Bool)
       (σ : Rng) (k : Nat), Coherent g → g.data[p.index.toNat]? = some p →
      Coherent (tryMoveParticle g p groups bump m mn σ k).grid) ∧
    (∀ (g : Grid) (x y radius : Int) (pid : Nat) (σ : Rng) (k : Nat)
       (g2 : Grid) (k2 : Nat), Coherent g →
      fillCircleAt g x y radius pid σ k = some (g2, k2) → Coherent g2) ∧
    (∀ g : Grid, Coherent g → ∀ p ∈ g.data,
      p.index = p.position.y * g.width + p.position.x ∧
      g.data[p.index.toNat]? = some p ∧
      p.position.x = p.index % g.width ∧ p.position.y = p.index / g.width) :=
  ⟨fun w h bp pid σ k g k2 hw hh hpop =>
      (populateGrid_coherent w h bp pid σ k g k2 hw hh hpop).2.2.2,
   fun g x y pid md mn σ k g2 b k2 hg h =>
      coherent_createParticleAt g x y pid md mn σ k g2 b k2 hg h,
   fun g p groups bump m mn σ k hg hp =>
      coherent_tryMove g p groups bump m mn σ k hg hp,
   fun g x y r pid σ k g2 k2 hg h =>
      coherent_fillCircleAt g x y r pid σ k g2 k2 hg h,
   fun g hg p hp => coherent_mem g hg p hp⟩

/-- Witness for C5 at the concrete fixture grid: the water particle of
slot 2 carries index 2 = 1 * 2 + 0 and position (0, 1), and slot 2
holds exactly it. -/
theorem c5_witness :
    (mkWater 0 1 2).index =
        (mkWater 0 1 2).position.y * gridC4.width + (mkWater 0 1 2).position.x ∧
    gridC4.data[(mkWater 0 1 2).index.toNat]? = some (mkWater 0 1 2) ∧
    (mkWater 0 1 2).position.x = (mkWater 0 1 2).index % gridC4.width ∧
    (mkWater 0 1 2).position.y = (mkWater 0 1 2).index / gridC4.width :=
  c5_index_coherence.2.2.2.2 gridC4
    (by unfold Coherent CoherentData; with_unfolding_all decide)
    (mkWater 0 1 2) (by with_unfolding_all decide)

/-! C8: frame effect of fillCircleAt. -/

theorem isInBounds_congr (g1 g2 : Grid) (x y : Int)
    (h1 : g1.width = g2.width) (h2 : g1.height = g2.height) :
    isInBounds g1 x y = isInBounds g2 x y := by
  unfold isInBounds
  rw [h1, h2]

theorem flat_toNat_lt (w ht px py : Int) (hx0 : 0 ≤ px) (hxw : px < w)
    (hy0 : 0 ≤ py) (hyh : py < ht) :
    (py * w + px).toNat < (w * ht).toNat := by
  have hw0 : 0 < w := lt_of_le_of_lt hx0 hxw
  have h1 : 0 ≤ py * w + px := add_nonneg (mul_nonneg hy0 hw0.le) hx0
  have h2 : py * w + px < w * ht := by
    calc py * w + px < py * w + w := add_lt_add_left hxw (py * w)
      _ = (py + 1) * w := by ring
      _ ≤ ht * w := mul_le_mul_of_nonneg_right (by omega) hw0.le
      _ = w * ht := mul_comm ht w
  have habs : ∀ a b : Int, 0 ≤ a → a < b → a.toNat < b.toNat :=
    fun a b ha hab => by omega
  exact habs _ _ h1 h2

theorem slot_inj (w px1 py1 px2 py2 : Int)
    (hx01 : 0 ≤ px1) (hxw1 : px1 < w) (hy01 : 0 ≤ py1)
    (hx02 : 0 ≤ px2) (hxw2 : px2 < w) (hy02 : 0 ≤ py2)
    (heq : (py1 * w + px1).toNat = (py2 * w + px2).toNat) :
    px1 = px2 ∧ py1 = py2 := by
  have hw0 : 0 < w := lt_of_le_of_lt hx01 hxw1
  have hf1 : 0 ≤ py1 * w + px1 := add_nonneg (mul_nonneg hy01 hw0.le) hx01
  have hf2 : 0 ≤ py2 * w + px2 := add_nonneg (mul_nonneg hy02 hw0.le) hx02
  have heq2 : py1 * w + px1 = py2 * w + px2 := by
    rw [← Int.toNat_of_nonneg hf1, ← Int.toNat_of_nonneg hf2, heq]
  have hx : px1 = px2 := by
    have e1 : (py1 * w + px1) % w = px1 := by
      rw [add_comm, mul_comm, Int.add_mul_emod_self_left]
      exact Int.emod_eq_of_lt hx01 hxw1
    have e2 : (py2 * w + px2) % w = px2 := by
      rw [add_comm, mul_comm, Int.add_mul_emod_self_left]
      exact Int.emod_eq_of_lt hx02 hxw2
    rw [← e1, ← e2, heq2]
  refine ⟨hx, ?_⟩
  have hmul : py1 * w = py2 * w := by
    rw [hx] at heq2
    linarith
  exact mul_right_cancel₀ (ne_of_gt hw0) hmul

theorem square_bound_of_circle (i j radius : Int) (hr : 0 ≤ radius)
    (h : i * i + j * j ≤ radius * radius) : -radius ≤ i ∧ i ≤ radius := by
  constructor
  · by_contra hc
    push_neg at hc
    nlinarith [mul_self_nonneg j]
  · by_contra hc
    push_neg at hc
    nlinarith [mul_self_nonneg j]

theorem mem_fillCirclePairs (radius i j : Int) (hi1 : -radius ≤ i) (hi2 : i ≤ radius)
    (hj1 : -radius ≤ j) (hj2 : j ≤ radius) : (i, j) ∈ fillCirclePairs radius := by
  unfold fillCirclePairs
  rw [List.mem_flatMap]
  refine ⟨i, ?_, ?_⟩
  · rw [List.mem_map]
    refine ⟨(i + radius).toNat, by rw [List.mem_range]; omega, by omega⟩
  · rw [List.mem_map]
    refine ⟨j, ?_, rfl⟩
    rw [List.mem_map]
    exact ⟨(j + radius).toNat, by rw [List.mem_range]; omega, by omega⟩

theorem fillCircleStep_effect (x y radius : Int) (pid : Nat) (σ : Rng)
    (acc : Grid × Nat) (ij : Int × Int) (r : Grid × Nat)
    (h : fillCircleStep x y radius pid σ acc ij = some r) :
    r.1.width = acc.1.width ∧ r.1.height = acc.1.height ∧
    r.1.blueprint = acc.1.blueprint ∧
    (r.1.data = acc.1.data ∨
      (ij.1 * ij.1 + ij.2 * ij.2 ≤ radius * radius ∧
       isInBounds acc.1 (x + ij.1) (y + ij.2) = true ∧
       (pid = 0 ∨ ∃ prev,
         acc.1.data[((y + ij.2) * acc.1.width + (x + ij.1)).toNat]? = some prev ∧
           prev.id = 0) ∧
       ∃ pd p0, acc.1.blueprint pid = some pd ∧ buildParticle pd (σ acc.2) = some p0 ∧
         r.1.data = acc.1.data.set ((y + ij.2) * acc.1.width + (x + ij.1)).toNat
           { p0 with
             position := ⟨x + ij.1, y + ij.2⟩,
             index := (y + ij.2) * acc.1.width + (x + ij.1) })) := by
  unfold fillCircleStep at h
  dsimp only at h
  split at h
  · cases h
    exact ⟨rfl, rfl, rfl, Or.inl rfl⟩
  · next hcirc =>
    split at h
    · next hbound =>
      cases hcr : createParticleAt acc.1 (x + ij.1) (y + ij.2) pid true true σ acc.2 with
      | none =>
        rw [hcr] at h
        dsimp only at h
        split at h
        · cases h
        · cases hgp : getParticleAt acc.1 (x + ij.1) (y + ij.2) with
          | none => rw [hgp] at h; cases h
          | some prev =>
            rw [hgp] at h
            dsimp only at h
            split at h
            · cases h
            · cases h
              exact ⟨rfl, rfl, rfl, Or.inl rfl⟩
      | some trip =>
        obtain ⟨gg, bb, kk⟩ := trip
        obtain ⟨hW, hH, hB, hca⟩ := createParticleAt_effect acc.1 (x + ij.1) (y + ij.2)
          pid true true σ acc.2 gg bb kk hcr
        rcases hca with ⟨hb2, _, _⟩ | ⟨_, _, pd, p0, hbp, hbuild, hdata⟩
        · rw [hbound] at hb2
          simp at hb2
        · rw [hcr] at h
          dsimp only at h
          split at h
          · next hpid =>
            cases h
            exact ⟨hW, hH, hB, Or.inr ⟨not_lt.1 hcirc, hbound, Or.inl hpid,
              pd, p0, hbp, hbuild, hdata⟩⟩
          · cases hgp : getParticleAt acc.1 (x + ij.1) (y + ij.2) with
            | none => rw [hgp] at h; cases h
            | some prev =>
              rw [hgp] at h
              dsimp only at h
              split at h
              · next hprev =>
                cases h
                have hocc : acc.1.data[((y + ij.2) * acc.1.width + (x + ij.1)).toNat]?
                    = some prev := by
                  unfold getParticleAt at hgp
                  rw [if_pos hbound] at hgp
                  exact hgp
                exact ⟨hW, hH, hB, Or.inr ⟨not_lt.1 hcirc, hbound,
                  Or.inr ⟨prev, hocc, hprev⟩, pd, p0, hbp, hbuild, hdata⟩⟩
              · cases h
                exact ⟨rfl, rfl, rfl, Or.inl rfl⟩
    · cases h
      exact ⟨rfl, rfl, rfl, Or.inl rfl⟩

theorem fillCircleStep_paints (x y radius : Int) (pid : Nat) (σ : Rng)
    (acc : Grid × Nat) (ij : Int × Int) (r : Grid × Nat)
    (h : fillCircleStep x y radius pid σ acc ij = some r)
    (hcirc : ij.1 * ij.1 + ij.2 * ij.2 ≤ radius * radius)
    (hbound : isInBounds acc.1 (x + ij.1) (y + ij.2) = true)
    (hcond : pid = 0 ∨ ∃ prev,
      acc.1.data[((y + ij.2) * acc.1.width + (x + ij.1)).toNat]? = some prev ∧
        prev.id = 0) :
    ∃ pd p0, acc.1.blueprint pid = some pd ∧ buildParticle pd (σ acc.2) = some p0 ∧
      r.1.data = acc.1.data.set ((y + ij.2) * acc.1.width + (x + ij.1)).toNat
        { p0 with
          position := ⟨x + ij.1, y + ij.2⟩,
          index := (y + ij.2) * acc.1.width + (x + ij.1) } := by
  unfold fillCircleStep at h
  dsimp only at h
  rw [if_neg (not_lt.2 hcirc), if_pos hbound] at h
  cases hcr : createParticleAt acc.1 (x + ij.1) (y + ij.2) pid true true σ acc.2 with
  | none =>
    rw [hcr] at h
    dsimp only at h
    rcases hcond with hpid | ⟨prev, hocc, hprev⟩
    · rw [if_pos hpid] at h
      cases h
    · have hgp : getParticleAt acc.1 (x + ij.1) (y + ij.2) = some prev := by
        unfold getParticleAt
        rw [if_pos hbound]
        exact hocc
      by_cases hpid : pid = 0
      · rw [if_pos hpid] at h
        cases h
      · rw [if_neg hpid, hgp] at h
        dsimp only at h
        rw [if_pos hprev] at h
        cases h
  | some trip =>
    obtain ⟨gg, bb, kk⟩ := trip
    obtain ⟨hW, hH, hB, hca⟩ := createParticleAt_effect acc.1 (x + ij.1) (y + ij.2)
      pid true true σ acc.2 gg bb kk hcr
    rcases hca with ⟨hb2, _, _⟩ | ⟨_, _, pd, p0, hbp, hbuild, hdata⟩
    · rw [hbound] at hb2
      simp at hb2
    · rw [hcr] at h
      dsimp only at h
      refine ⟨pd, p0, hbp, hbuild, ?_⟩
      rcases hcond with hpid | ⟨prev, hocc, hprev⟩
      · rw [if_pos hpid] at h
        cases h
        exact hdata
      · have hgp : getParticleAt acc.1 (x + ij.1) (y + ij.2) = some prev := by
          unfold getParticleAt
          rw [if_pos hbound]
          exact hocc
        by_cases hpid : pid = 0
        · rw [if_pos hpid] at h
          cases h
          exact hdata
        · rw [if_neg hpid, hgp] at h
          dsimp only at h
          rw [if_pos hprev] at h
          cases h
          exact hdata

theorem fillFold_main (x y radius : Int) (pid : Nat) (σ : Rng) (g : Grid) :
    ∀ (L : List (Int × Int)) (acc r : Grid × Nat),
    L.foldlM (fillCircleStep x y radius pid σ) acc = some r →
    acc.1.width = g.width → acc.1.height = g.height →
    acc.1.blueprint = g.blueprint →
    acc.1.data.length = (g.width * g.height).toNat →
    r.1.width = g.width ∧ r.1.height = g.height ∧
    r.1.blueprint = g.blueprint ∧
    r.1.data.length = (g.width * g.height).toNat ∧
    ∀ n : Nat, r.1.data[n]? = acc.1.data[n]? ∨
      ((∃ ij ∈ L, ij.1 * ij.1 + ij.2 * ij.2 ≤ radius * radius ∧
        isInBounds g (x + ij.1) (y + ij.2) = true ∧
        n = ((y + ij.2) * g.width + (x + ij.1)).toNat ∧
        (pid = 0 ∨ ∃ prev, acc.1.data[n]? = some prev ∧ prev.id = 0)) ∧
      ∃ p' pd, r.1.data[n]? = some p' ∧ g.blueprint pid = some pd ∧ p'.id = pd.id) := by
  intro L
  induction L with
  | nil =>
    intro acc r hfold hW hH hB hlen
    rw [List.foldlM_nil] at hfold
    cases hfold
    exact ⟨hW, hH, hB, hlen, fun n => Or.inl rfl⟩
  | cons c L ih =>
    intro acc r hfold hW hH hB hlen
    rw [List.foldlM_cons] at hfold
    cases hstep : fillCircleStep x y radius pid σ acc c with
    | none =>
      rw [hstep] at hfold
      simp at hfold
    | some acc1 =>
      rw [hstep] at hfold
      obtain ⟨hW1, hH1, hB1, hdd⟩ := fillCircleStep_effect x y radius pid σ acc c acc1 hstep
      have hlen1 : acc1.1.data.length = (g.width * g.height).toNat := by
        rcases hdd with hsame | ⟨_, _, _, pd, p0, _, _, hset⟩
        · rw [hsame]
          exact hlen
        · rw [hset, List.length_set]
          exact hlen
      obtain ⟨hW2, hH2, hB2, hlen2, hpt⟩ :=
        ih acc1 r hfold (hW1.trans hW) (hH1.trans hH) (hB1.trans hB) hlen1
      refine ⟨hW2, hH2, hB2, hlen2, ?_⟩
      intro n
      rcases hdd with hsame | ⟨hcirc, hbnd, hcond, pd, p0, hbp, hbuild, hset⟩
      · rcases hpt n with h1 | ⟨⟨ij, hij, hc1, hc2, hc3, hc4⟩, hval⟩
        · exact Or.inl (h1.trans (by rw [hsame]))
        · refine Or.inr ⟨⟨ij, List.mem_cons_of_mem c hij, hc1, hc2, hc3, ?_⟩, hval⟩
          rcases hc4 with hpid | ⟨prev, hocc, hprev⟩
          · exact Or.inl hpid
          · refine Or.inr ⟨prev, ?_, hprev⟩
            rw [← hsame]
            exact hocc
      · have hbndg : isInBounds g (x + c.1) (y + c.2) = true := by
          rw [← isInBounds_congr acc.1 g (x + c.1) (y + c.2) hW hH]
          exact hbnd
        have hcomp : 0 ≤ x + c.1 ∧ x + c.1 < g.width ∧ 0 ≤ y + c.2 ∧ y + c.2 < g.height := by
          unfold isInBounds at hbndg
          simp only [Bool.and_eq_true, decide_eq_true_eq] at hbndg
          exact ⟨hbndg.1.1.1, hbndg.1.1.2, hbndg.1.2, hbndg.2⟩
        have hsltlt : ((y + c.2) * acc.1.width + (x + c.1)).toNat < acc.1.data.length := by
          rw [hlen, hW]
          exact flat_toNat_lt g.width g.height (x + c.1) (y + c.2)
            hcomp.1 hcomp.2.1 hcomp.2.2.1 hcomp.2.2.2
        have hcslot : ((y + c.2) * acc.1.width + (x + c.1)).toNat =
            ((y + c.2) * g.width + (x + c.1)).toNat := by rw [hW]
        by_cases hn : n = ((y + c.2) * acc.1.width + (x + c.1)).toNat
        · subst hn
          have hacc1n : acc1.1.data[((y + c.2) * acc.1.width + (x + c.1)).toNat]? =
              some { p0 with
                position := ⟨x + c.1, y + c.2⟩,
                index := (y + c.2) * acc.1.width + (x + c.1) } := by
            rw [hset]
            exact List.getElem?_set_self hsltlt
          have hpack : ∃ ij ∈ c :: L, ij.1 * ij.1 + ij.2 * ij.2 ≤ radius * radius ∧
              isInBounds g (x + ij.1) (y + ij.2) = true ∧
              ((y + c.2) * acc.1.width + (x + c.1)).toNat =
                ((y + ij.2) * g.width + (x + ij.1)).toNat ∧
              (pid = 0 ∨ ∃ prev,
                acc.1.data[((y + c.2) * acc.1.width + (x + c.1)).toNat]? = some prev ∧
                  prev.id = 0) :=
            ⟨c, List.mem_cons_self c L, hcirc, hbndg, hcslot, hcond⟩
          rcases hpt ((y + c.2) * acc.1.width + (x + c.1)).toNat with h1 | ⟨_, hval⟩
          · refine Or.inr ⟨hpack, { p0 with
                position := ⟨x + c.1, y + c.2⟩,
                index := (y + c.2) * acc.1.width + (x + c.1) }, pd, h1.trans hacc1n, ?_, ?_⟩
            · rw [← hB]
              exact hbp
            · exact (buildParticle_fields pd (σ acc.2) p0 hbuild).1
          · exact Or.inr ⟨hpack, hval⟩
        · have hsame_n : acc1.1.data[n]? = acc.1.data[n]? := by
            rw [hset]
            exact List.getElem?_set_ne (Ne.symm hn)
          rcases hpt n with h1 | ⟨⟨ij, hij, hc1, hc2, hc3, hc4⟩, hval⟩
          · exact Or.inl (h1.trans hsame_n)
          · refine Or.inr ⟨⟨ij, List.mem_cons_of_mem c hij, hc1, hc2, hc3, ?_⟩, hval⟩
            rcases hc4 with hpid | ⟨prev, hocc, hprev⟩
            · exact Or.inl hpid
            · refine Or.inr ⟨prev, ?_, hprev⟩
              rw [← hsame_n]
              exact hocc

theorem fillFold_pos (x y radius : Int) (pid : Nat) (σ : Rng) (g : Grid) :
    ∀ (L : List (Int × Int)) (acc r : Grid × Nat),
    L.foldlM (fillCircleStep x y radius pid σ) acc = some r →
    acc.1.width = g.width → acc.1.height = g.height →
    acc.1.blueprint = g.blueprint →
    acc.1.data.length = (g.width * g.height).toNat →
    ∀ ij ∈ L,
      ij.1 * ij.1 + ij.2 * ij.2 ≤ radius * radius →
      isInBounds g (x + ij.1) (y + ij.2) = true →
      (pid = 0 ∨ ∃ prev,
        acc.1.data[((y + ij.2) * g.width + (x + ij.1)).toNat]? = some prev ∧
          prev.id = 0) →
      ∃ p' pd, r.1.data[((y + ij.2) * g.width + (x + ij.1)).toNat]? = some p' ∧
        g.blueprint pid = some pd ∧ p'.id = pd.id := by
  intro L
  induction L with
  | nil =>
    intro acc r _ _ _ _ _ ij hij
    cases hij
  | cons c L ih =>
    intro acc r hfold hW hH hB hlen ij hij hcirc hbnd hcond
    have hcompij : 0 ≤ x + ij.1 ∧ x + ij.1 < g.width ∧
        0 ≤ y + ij.2 ∧ y + ij.2 < g.height := by
      unfold isInBounds at hbnd
      simp only [Bool.and_eq_true, decide_eq_true_eq] at hbnd
      exact ⟨hbnd.1.1.1, hbnd.1.1.2, hbnd.1.2, hbnd.2⟩
    rw [List.foldlM_cons] at hfold
    cases hstep : fillCircleStep x y radius pid σ acc c with
    | none =>
      rw [hstep] at hfold
      simp at hfold
    | some acc1 =>
      rw [hstep] at hfold
      obtain ⟨hW1, hH1, hB1, hdd⟩ := fillCircleStep_effect x y radius pid σ acc c acc1 hstep
      have hlen1 : acc1.1.data.length = (g.width * g.height).toNat := by
        rcases hdd with hsame | ⟨_, _, _, pd, p0, _, _, hset⟩
        · rw [hsame]
          exact hlen
        · rw [hset, List.length_set]
          exact hlen
      by_cases hc : c.1 * c.1 + c.2 * c.2 ≤ radius * radius ∧
          isInBounds g (x + c.1) (y + c.2) = true ∧ c.1 = ij.1 ∧ c.2 = ij.2
      · obtain ⟨hcc, hcb, he1, he2⟩ := hc
        have hslots : ((y + c.2) * acc.1.width + (x + c.1)).toNat =
            ((y + ij.2) * g.width + (x + ij.1)).toNat := by
          rw [hW, he1, he2]
        obtain ⟨pd, p0, hbp, hbuild, hset⟩ :=
          fillCircleStep_paints x y radius pid σ acc c acc1 hstep hcc
            (by rw [isInBounds_congr acc.1 g (x + c.1) (y + c.2) hW hH]; exact hcb)
            (by rw [hW, he1, he2]; exact hcond)
        have hsltlt : ((y + c.2) * acc.1.width + (x + c.1)).toNat < acc.1.data.length := by
          rw [hlen, hW, he1, he2]
          exact flat_toNat_lt g.width g.height (x + ij.1) (y + ij.2)
            hcompij.1 hcompij.2.1 hcompij.2.2.1 hcompij.2.2.2
        have hval1 : acc1.1.data[((y + ij.2) * g.width + (x + ij.1)).toNat]? =
            some { p0 with
              position := ⟨x + c.1, y + c.2⟩,
              index := (y + c.2) * acc.1.width + (x + c.1) } := by
          rw [← hslots, hset]
          exact List.getElem?_set_self hsltlt
        obtain ⟨_, _, _, _, hpt⟩ := fillFold_main x y radius pid σ g L acc1 r hfold
          (hW1.trans hW) (hH1.trans hH) (hB1.trans hB) hlen1
        rcases hpt ((y + ij.2) * g.width + (x + ij.1)).toNat with h1 | ⟨_, hval⟩
        · refine ⟨{ p0 with
              position := ⟨x + c.1, y + c.2⟩,
              index := (y + c.2) * acc.1.width + (x + c.1) }, pd, h1.trans hval1, ?_, ?_⟩
          · rw [← hB]
            exact hbp
          · exact (buildParticle_fields pd (σ acc.2) p0 hbuild).1
        · exact hval
      · have hij' : ij ∈ L := by
          rcases List.mem_cons.1 hij with he | h
          · exfalso
            apply hc
            rw [← he]
            exact ⟨hcirc, hbnd, rfl, rfl⟩
          · exact h
        have hsame : acc1.1.data[((y + ij.2) * g.width + (x + ij.1)).toNat]? =
            acc.1.data[((y + ij.2) * g.width + (x + ij.1)).toNat]? := by
          rcases hdd with hs | ⟨hcc, hcb, _, pd, p0, _, _, hset⟩
          · rw [hs]
          · rw [hset]
            refine List.getElem?_set_ne ?_
            intro heq
            have hcbg : isInBounds g (x + c.1) (y + c.2) = true := by
              rw [← isInBounds_congr acc.1 g (x + c.1) (y + c.2) hW hH]
              exact hcb
            have hcompc : 0 ≤ x + c.1 ∧ x + c.1 < g.width ∧
                0 ≤ y + c.2 ∧ y + c.2 < g.height := by
              unfold isInBounds at hcbg
              simp only [Bool.and_eq_true, decide_eq_true_eq] at hcbg
              exact ⟨hcbg.1.1.1, hcbg.1.1.2, hcbg.1.2, hcbg.2⟩
            rw [hW] at heq
            obtain ⟨hx, hy⟩ := slot_inj g.width (x + c.1) (y + c.2) (x + ij.1) (y + ij.2)
              hcompc.1 hcompc.2.1 hcompc.2.2.1
              hcompij.1 hcompij.2.1 hcompij.2.2.1 heq
            exact hc ⟨hcc, hcbg, by omega, by omega⟩
        refine ih acc1 r hfold (hW1.trans hW) (hH1.trans hH) (hB1.trans hB) hlen1
          ij hij' hcirc hbnd ?_
        rcases hcond with hpid | ⟨prev, hocc, hprev⟩
        · exact Or.inl hpid
        · refine Or.inr ⟨prev, ?_, hprev⟩
          rw [hsame]
          exact hocc

/-- Claim C8: the frame effect of fillCircleAt.  Any slot whose content
changed belongs to an in-bounds cell within Euclidean distance radius of
the center, and then only when erasing (element 0) or when the original
occupant of that slot was the EMPTY element; the changed slot ends up
holding a particle of the painted element; dimensions and array length
are untouched, so out-of-bounds coordinates are never written.
Conversely every in-bounds cell within the radius satisfying the paint
policy ends up holding a particle of the painted element. -/
theorem c8_fillCircle_frame (g : Grid) (cx cy radius : Int) (pid : Nat)
    (σ : Rng) (k : Nat) (g2 : Grid) (k2 : Nat)
    (hlen : g.data.length = (g.width * g.height).toNat)
    (h : fillCircleAt g cx cy radius pid σ k = some (g2, k2)) :
    g2.width = g.width ∧ g2.height = g.height ∧
    g2.data.length = g.data.length ∧
    (∀ n : Nat, g2.data[n]? ≠ g.data[n]? →
      ∃ px py : Int, isInBounds g px py = true ∧
        (px - cx) * (px - cx) + (py - cy) * (py - cy) ≤ radius * radius ∧
        n = (py * g.width + px).toNat ∧
        (pid = 0 ∨ ∃ prev, g.data[n]? = some prev ∧ prev.id = 0) ∧
        ∃ p' pd, g2.data[n]? = some p' ∧ g.blueprint pid = some pd ∧ p'.id = pd.id) ∧
    (0 ≤ radius → ∀ px py : Int, isInBounds g px py = true →
      (px - cx) * (px - cx) + (py - cy) * (py - cy) ≤ radius * radius →
      (pid = 0 ∨ ∃ prev, g.data[(py * g.width + px).toNat]? = some prev ∧ prev.id = 0) →
      ∃ p' pd, g2.data[(py * g.width + px).toNat]? = some p' ∧
        g.blueprint pid = some pd ∧ p'.id = pd.id) := by
  unfold fillCircleAt at h
  obtain ⟨hW, hH, _, hlen2, hpt⟩ := fillFold_main cx cy radius pid σ g
    (fillCirclePairs radius) (g, k) (g2, k2) h rfl rfl rfl hlen
  refine ⟨hW, hH, by rw [hlen2, hlen], ?_, ?_⟩
  · intro n hne
    rcases hpt n with h1 | ⟨⟨ij, _, hc1, hc2, hc3, hc4⟩, hval⟩
    · exact absurd h1 hne
    · refine ⟨cx + ij.1, cy + ij.2, hc2, ?_, hc3, hc4, hval⟩
      have e1 : cx + ij.1 - cx = ij.1 := by ring
      have e2 : cy + ij.2 - cy = ij.2 := by ring
      rw [e1, e2]
      exact hc1
  · intro hr0 px py hbnd hcirc hcond
    obtain ⟨hb1, hb2⟩ := square_bound_of_circle (px - cx) (py - cy) radius hr0 hcirc
    obtain ⟨hb3, hb4⟩ := square_bound_of_circle (py - cy) (px - cx) radius hr0
      (by linarith)
    have hmem := mem_fillCirclePairs radius (px - cx) (py - cy) hb1 hb2 hb3 hb4
    have e1 : cx + (px - cx) = px := by ring
    have e2 : cy + (py - cy) = py := by ring
    have hres := fillFold_pos cx cy radius pid σ g (fillCirclePairs radius)
      (g, k) (g2, k2) h rfl rfl rfl hlen (px - cx, py - cy) hmem hcirc
      (by rw [e1, e2]; exact hbnd) (by rw [e1, e2]; exact hcond)
    rw [e1, e2] at hres
    exact hres

set_option maxRecDepth 100000 in
/-- Witness for C8: erasing (element 0, radius 0) at cell (0, 0) of the
fixture grid succeeds and the frame theorem applies to the result. -/
theorem c8_witness :
    gridC4.data.length = (gridC4.width * gridC4.height).toNat ∧
    ((fillCircleAt gridC4 0 0 0 0 zeroRng 0).getD (gridC4, 0)).1.width = gridC4.width :=
  ⟨by with_unfolding_all decide,
   (c8_fillCircle_frame gridC4 0 0 0 0 zeroRng 0
      ((fillCircleAt gridC4 0 0 0 0 zeroRng 0).getD (gridC4, 0)).1
      ((fillCircleAt gridC4 0 0 0 0 zeroRng 0).getD (gridC4, 0)).2
      (by with_unfolding_all decide)
      (by with_unfolding_all rfl)).1⟩

end Bog
